import Mathlib

/-!
Shallow embedding of the C++ON header generator
(`scripts/generate_uber_header.py` and `scripts/generate_uber_header_old.py`).

Python strings are modelled as `List Char` (`Text`).  The file system that
`read_file` consults is modelled as an association list from path to content;
a missing path raises `FileNotFoundError`, modelled by `Except.error` carrying
the message Python would produce.  Python `set` objects (`std_includes`,
`processed_templates`) are modelled as lists with membership-guarded insertion;
the only observation of their order goes through `sorted(...)`, which is
modelled by an insertion sort in code-point lexicographic order (on the
duplicate-free lists produced by the sets, every correct sort agrees with
Python's `sorted`).

The regular expressions of the script are small enough to admit exact
deterministic scanners, which are derived below by hand from the backtracking
semantics of each pattern (commented at each definition).  All definitions are
structurally recursive, so every concrete run can be evaluated by the kernel;
scanners that jump over a matched region do so through an explicit
skip counter.
-/

namespace UberGen

/-- Python strings, as lists of characters. -/
abbrev Text := List Char

/-- Horizontal whitespace, the `[ \t]` character class used by `_replace_tag`
and `_cleanup_content`. -/
def isHT (c : Char) : Bool := c == ' ' || c == '\t'

/-- The `\s` class of Python `re` (ASCII part) and the default strip set of
`str.strip()`: space, tab, newline, carriage return, vertical tab, form feed. -/
def isPySpace (c : Char) : Bool :=
  c == ' ' || c == '\t' || c == '\n' || c == '\r' ||
  c == Char.ofNat 11 || c == Char.ofNat 12

/-- The `[A-Z0-9_]` character class of both tag grammars. -/
def isNameChar (c : Char) : Bool :=
  decide (('A' ≤ c ∧ c ≤ 'Z') ∨ ('0' ≤ c ∧ c ≤ '9') ∨ c = '_')

/-- Python `str.strip()` with no arguments. -/
def pyStrip (l : Text) : Text :=
  ((l.dropWhile isPySpace).reverse.dropWhile isPySpace).reverse

/-- The quote characters stripped by `value.strip('\x27"')`. -/
def isQuote (c : Char) : Bool := c == Char.ofNat 39 || c == Char.ofNat 34

/-- Python `value.strip('\x27"')`. -/
def pyStripQuotes (l : Text) : Text :=
  ((l.dropWhile isQuote).reverse.dropWhile isQuote).reverse

/-- Python `'\n'.join(lines)`. -/
def joinNL (ls : List Text) : Text := List.intercalate ['\n'] ls

/-! ### Python dict, modelled as an insertion-ordered association list -/

/-- `d.get(k)` / `d[k]`. -/
def dictGet (m : List (Text × α)) (k : Text) : Option α :=
  match m with
  | [] => none
  | (k2, v) :: rest => if k2 = k then some v else dictGet rest k

/-- `d.get(k, dflt)`. -/
def dictGetD (m : List (Text × α)) (k : Text) (dflt : α) : α :=
  (dictGet m k).getD dflt

/-- `k in d`. -/
def dictHas (m : List (Text × α)) (k : Text) : Bool := (dictGet m k).isSome

/-- `d[k] = v`: overwrite in place if present, else append (insertion order). -/
def dictSet (m : List (Text × α)) (k : Text) (v : α) : List (Text × α) :=
  match m with
  | [] => [(k, v)]
  | (k2, v2) :: rest =>
    if k2 = k then (k2, v) :: rest else (k2, v2) :: dictSet rest k v

/-- Python `set.add` on the include/visited collections: membership-guarded
insertion (order is irrelevant to every observation the scripts make). -/
def stdAdd (s : List Text) (x : Text) : List Text :=
  if x ∈ s then s else s ++ [x]

/-! ### Python `str.replace` -/

/-- Scanner for `str.replace` with a non-empty pattern: leftmost-first,
non-overlapping, the replacement text is never rescanned.  The first argument
counts characters of a previously matched region still to be consumed. -/
def replaceScan (pat repl : Text) : Nat → Text → Text
  | _, [] => []
  | Nat.succ k, _ :: rest => replaceScan pat repl k rest
  | 0, c :: rest =>
    if pat.isPrefixOf (c :: rest) ∧ pat ≠ [] then
      repl ++ replaceScan pat repl (pat.length - 1) rest
    else
      c :: replaceScan pat repl 0 rest

/-- Python `s.replace(pat, repl)`.  (For the empty pattern Python interleaves
`repl` around every character; the scripts only ever replace matched tags,
which are at least four characters long.) -/
def replaceAll (s pat repl : Text) : Text :=
  if pat = [] then repl ++ s.flatMap (fun c => c :: repl)
  else replaceScan pat repl 0 s

/-! ### `_replace_tag` (lines 29–36 of `generate_uber_header.py`)

For an empty/whitespace replacement the script removes every match of

    ^[ \t]*TAG[ \t]*(?:\r?\n)?(?:[ \t]*\r?\n)?      (MULTILINE)

The tag's first character is `'['`, which lies in none of the classes of the
pattern, so the backtracking regex is equivalent to the deterministic scanner
below: at a line start, skip horizontal whitespace, require the literal tag,
skip horizontal whitespace, then optionally one line ending, then optionally
one blank line (horizontal whitespace followed by a line ending). -/

/-- Consume one `\r?\n` line ending, if present. -/
def chompNL : Text → Option Text
  | '\n' :: t => some t
  | '\r' :: '\n' :: t => some t
  | _ => none

/-- Try the `_replace_tag` removal pattern anchored at the current position.
Returns the remainder after the match together with a flag telling whether the
match ended just after a line ending (so that the next position is again a
line start for the MULTILINE `^`). -/
def matchTagLineAt (tag s : Text) : Option (Text × Bool) :=
  let s1 := s.dropWhile isHT
  if tag.isPrefixOf s1 then
    let s2 := (s1.drop tag.length).dropWhile isHT
    match chompNL s2 with
    | none => some (s2, false)
    | some s3 =>
      match chompNL (s3.dropWhile isHT) with
      | some s4 => some (s4, true)
      | none => some (s3, true)
  else none

/-- The removal loop of `_replace_tag`'s `re.sub(..., '', ..., re.MULTILINE)`:
scan left to right, trying the pattern at every line start; a match (always at
least `tag.length ≥ 1` characters long) is dropped by skipping its region. -/
def dropScan (tag : Text) : Nat → Bool → Text → Text
  | _, _, [] => []
  | Nat.succ k, nl, _ :: rest => dropScan tag k nl rest
  | 0, atLS, c :: rest =>
    if atLS = true ∧ tag ≠ [] then
      match matchTagLineAt tag (c :: rest) with
      | some (r, nl) =>
        dropScan tag ((c :: rest).length - r.length - 1) nl rest
      | none => c :: dropScan tag 0 (c == '\n') rest
    else c :: dropScan tag 0 (c == '\n') rest

/-- All matches of the `_replace_tag` removal pattern, deleted.  Scanning
starts at a line start (`^` matches at position 0). -/
def dropTagLines (tag : Text) (s : Text) : Text := dropScan tag 0 true s

/-- `_replace_tag(template_content, tag_text, replacement)`. -/
def replaceTag (content tag repl : Text) : Text :=
  if pyStrip repl = [] then dropTagLines tag content
  else replaceAll content tag repl

/-! ### `_cleanup_content` (lines 38–42)

`re.sub(r'[ \t]+(\r?\n)', r'\1', content)`: every maximal horizontal
whitespace run that is immediately followed by a line ending is deleted (the
line ending is kept).  The accumulator holds the pending horizontal run in
reverse; it is dropped at a line ending and flushed at any other character or
at the end of the text. -/

def cleanupScan (pend : Text) : Text → Text
  | [] => pend.reverse
  | '\n' :: rest => '\n' :: cleanupScan [] rest
  | '\r' :: '\n' :: rest => '\r' :: '\n' :: cleanupScan [] rest
  | c :: rest =>
    if isHT c then cleanupScan (c :: pend) rest
    else pend.reverse ++ c :: cleanupScan [] rest

/-- `_cleanup_content(content)`. -/
def cleanupContent (s : Text) : Text := cleanupScan [] s

/-! ### The conditional-tag scanner

Pattern (line 52): `\[\[@([A-Z0-9_]+)\s*\?\s*([^:]+)\s*:\s*([^\]]+)\]\]`.

Backtracking analysis (which the scanner below implements):
the name run is maximal (its class is disjoint from `\s` and `?`);
`([^:]+)\s*:` forces the `:` to be the *first* colon after the `?`, with the
greedy `\s*` before the group ceding at most down to one character, so the
group is the colon-free span with its leading whitespace stripped — except
that a fully-whitespace span keeps its last character; `([^\]]+)\s*\]\]`
likewise forces the first `]` after the colon, which must be immediately
followed by a second `]`, and the group is that bracket-free span with
leading whitespace stripped (same one-character exception).  Group text keeps
its trailing whitespace (the script strips it where needed). -/

structure CondMatch where
  fullTag : Text
  cond : Text
  thenB : Text
  elseB : Text
deriving DecidableEq, Repr

/-- Try the conditional-tag pattern anchored at the start of `s`; on success
return the match and the remainder of `s`. -/
def matchCondAt (s : Text) : Option (CondMatch × Text) :=
  match s with
  | '[' :: '[' :: '@' :: r0 =>
    let name := r0.takeWhile isNameChar
    if name = [] then none
    else
      let r1 := r0.dropWhile isNameChar
      let ws1 := r1.takeWhile isPySpace
      match r1.dropWhile isPySpace with
      | '?' :: r3 =>
        let pre := r3.takeWhile (fun c => !(c == ':'))
        if pre = [] then none
        else
          match r3.drop pre.length with
          | ':' :: r4 =>
            let post := r4.takeWhile (fun c => !(c == ']'))
            if post = [] then none
            else
              match r4.drop post.length with
              | ']' :: ']' :: r5 =>
                let thenB := pre.drop
                  (min (pre.takeWhile isPySpace).length (pre.length - 1))
                let elseB := post.drop
                  (min (post.takeWhile isPySpace).length (post.length - 1))
                some ({ fullTag := '[' :: '[' :: '@' ::
                          (name ++ ws1 ++ '?' :: pre ++ ':' :: post ++ [']', ']'])
                        cond := name, thenB := thenB, elseB := elseB }, r5)
              | _ => none
          | _ => none
      | _ => none
  | _ => none

/-- `re.finditer` for the conditional-tag pattern: leftmost, non-overlapping;
on failure at a position the scan advances one character; a match (always at
least nine characters long) is jumped over via the skip counter. -/
def condScan : Nat → Text → List CondMatch
  | _, [] => []
  | Nat.succ k, _ :: rest => condScan k rest
  | 0, c :: rest =>
    match matchCondAt (c :: rest) with
    | some (m, r) => m :: condScan ((c :: rest).length - r.length - 1) rest
    | none => condScan 0 rest

/-- All conditional-tag matches of `s`, in order. -/
def findCondMatches (s : Text) : List CondMatch := condScan 0 s

/-! ### The simple-tag scanner: `\[\[([A-Z0-9_]+)\]\]` (line 106). -/

structure SimpleMatch where
  fullTag : Text
  name : Text
deriving DecidableEq, Repr

/-- Try the simple-tag pattern anchored at the start of `s`. -/
def matchSimpleAt (s : Text) : Option (SimpleMatch × Text) :=
  match s with
  | '[' :: '[' :: r0 =>
    let name := r0.takeWhile isNameChar
    if name = [] then none
    else
      match r0.drop name.length with
      | ']' :: ']' :: r2 =>
        some ({ fullTag := '[' :: '[' :: (name ++ [']', ']']), name := name }, r2)
      | _ => none
  | _ => none

/-- `re.finditer` for the simple-tag pattern. -/
def simpleScan : Nat → Text → List SimpleMatch
  | _, [] => []
  | Nat.succ k, _ :: rest => simpleScan k rest
  | 0, c :: rest =>
    match matchSimpleAt (c :: rest) with
    | some (m, r) => m :: simpleScan ((c :: rest).length - r.length - 1) rest
    | none => simpleScan 0 rest

/-- All simple-tag matches of `s`, in order. -/
def findSimpleMatches (s : Text) : List SimpleMatch := simpleScan 0 s

/-! ### `re.search(r'<([^>]+)>', else_branch)` (line 59) -/

/-- First `<...>` group in `s`: at each position, a `<` followed by a
non-empty `>`-free run followed by `>` matches; otherwise advance one. -/
def searchAngle : Text → Option Text
  | [] => none
  | '<' :: rest =>
    let g := rest.takeWhile (fun c => !(c == '>'))
    if g ≠ [] ∧ (rest.drop g.length).head? = some '>' then some g
    else searchAngle rest
  | _ :: rest => searchAngle rest

/-! ### The expansion environment

`fragments`, `headers`, `is_uber` and `base_path` are passed unchanged through
every recursive call of `process_template`; the file system is the external
collaborator `read_file` consults.  `std_includes` (`Option`: `None` in uber
mode) and `processed_templates` are the two mutable sets, threaded as state. -/

structure Env where
  fragments : List (Text × List Text)
  headers : List (Text × Text)
  isUber : Bool
  basePath : Option Text
  fs : List (Text × Text)
deriving DecidableEq

/-- Line 56: `value = then_branch.strip() if condition == "UBER" and is_uber
else else_branch.strip()`. -/
def condValue (m : CondMatch) (isUber : Bool) : Text :=
  if m.cond = "UBER".data ∧ isUber = true then pyStrip m.thenB
  else pyStrip m.elseB

/-- Lines 76–81: namespace classification from the two singleton name lists. -/
def nsOf (name : Text) : Text :=
  if name = "PROCESSOR_FEATURES_INFO".data then "platform".data
  else if name = "SIMD_COMPARISONS".data then "simd".data
  else "cppon".data

/-- POSIX `os.path.join` for two components. -/
def osJoin2 (a b : Text) : Text :=
  if b.head? = some '/' then b
  else if a.getLast? = some '/' then a ++ b
  else if a = [] then b
  else a ++ '/' :: b

/-- Line 82: `os.path.join(base_path, "templates", "headers", namespace,
header_file)`. -/
def templatePath (basePath ns file : Text) : Text :=
  osJoin2 (osJoin2 (osJoin2 (osJoin2 basePath "templates".data) "headers".data) ns) file

/-- The message of the `FileNotFoundError` that `read_file` raises for a
missing path (caught by the `except Exception` of line 91). -/
def fileNotFoundMsg (p : Text) : Text :=
  "[Errno 2] No such file or directory: ".data ++
    Char.ofNat 39 :: (p ++ [Char.ofNat 39])

/-- `read_file`, over the modelled file system (the encoding fallbacks of the
real function do not change which text it returns here). -/
def fsRead (fs : List (Text × Text)) (p : Text) : Except Text Text :=
  match dictGet fs p with
  | some t => Except.ok t
  | none => Except.error (fileNotFoundMsg p)

/-- Lines 96–98: the literal is a quoted header filename or a bracketed
standard include. -/
def isIncludeSpelling (v : Text) : Bool :=
  (v.head? == some (Char.ofNat 34) &&
    ((".h".data ++ [Char.ofNat 34]).isSuffixOf v ||
     (".hpp".data ++ [Char.ofNat 34]).isSuffixOf v ||
     (".hxx".data ++ [Char.ofNat 34]).isSuffixOf v ||
     (".h++".data ++ [Char.ofNat 34]).isSuffixOf v)) ||
  (v.head? == some '<' && v.getLast? == some '>')

/-- Lines 110–113 (new script): a simple tag resolves to the joined fragment
lines, or to the empty string when the name is unknown. -/
def simpleRepl (fragments : List (Text × List Text)) (name : Text) : Text :=
  match dictGet fragments name with
  | some ls => joinNL ls
  | none => []

/-- Lines 107–114 (new script): the simple-tag loop, over the matches found in
the text that the conditional pass produced. -/
def simplePass (fragments : List (Text × List Text)) :
    List SimpleMatch → Text → Text
  | [], c => c
  | sm :: rest, c =>
    simplePass fragments rest (replaceTag c sm.fullTag (simpleRepl fragments sm.name))

/-- The old simple-tag loop (lines 117–122 of the old script): only known
fragments are replaced; an unknown simple tag is left verbatim. -/
def simplePassOld (fragments : List (Text × List Text)) :
    List SimpleMatch → Text → Text
  | [], c => c
  | sm :: rest, c =>
    match dictGet fragments sm.name with
    | some ls => simplePassOld fragments rest (replaceAll c sm.fullTag (joinNL ls))
    | none => simplePassOld fragments rest c

/-- The threaded result of one resolution or pass: replacement (or expanded
text), include set, visited set. -/
abbrev TRes := Text × Option (List Text) × List Text

/-- Placeholder returned if the recursion fuel runs out.  `process_template`
enters each template path at most once per top-level call (the path is added
to the visited set before recursing), so fuel exceeding the number of file
system entries is never exhausted; the marker makes any failure of that
argument visible in a computed result. -/
def fuelMarker : Text := "<<FUEL EXHAUSTED>>".data

/-- Resolution of one conditional tag (lines 54–101), parameterised by the
recursive expansion used in the header-inclusion branch. -/
def resolveCondF (recur : Text → Option (List Text) → List Text → TRes)
    (env : Env) (m : CondMatch)
    (std : Option (List Text)) (proc : List Text) : TRes :=
  let value := condValue m env.isUber
  if ("@STDCAPTURE".data).isPrefixOf (pyStrip m.thenB) = true ∧
      std.isSome = true ∧ env.isUber = false then
    -- standard-include capture (lines 58–62)
    let std2 := match searchAngle m.elseB with
      | some g => std.map (fun s => stdAdd s ('<' :: (g ++ ['>'])))
      | none => std
    ("#include ".data ++ m.elseB, std2, proc)
  else if ("@STDCAPTURE".data).isPrefixOf value = true then
    ([], std, proc)
  else if ("@".data).isPrefixOf value = true then
    let name := value.drop 1
    if name = "STANDARD_INCLUDES".data ∧ env.isUber = true then
      (joinNL ((dictGetD env.fragments "STANDARD_INCLUDES".data []).map
        (fun inc => "#include ".data ++ inc)), std, proc)
    else if name = "ASSERT_MACRO".data then
      (joinNL (dictGetD env.fragments "ASSERT_MACRO".data []), std, proc)
    else if dictHas env.fragments name = true then
      (joinNL (dictGetD env.fragments name []), std, proc)
    else if dictHas env.headers name = true ∧ env.basePath.isSome = true ∧
        env.isUber = true then
      let path := templatePath (env.basePath.getD []) (nsOf name)
        (dictGetD env.headers name [])
      if path ∈ proc then
        ("/* Circular reference detected: ".data ++ name ++ " */".data,
         std, proc)
      else
        match fsRead env.fs path with
        | Except.ok t => recur t std (path :: proc)
        | Except.error e =>
          ("/* Error processing ".data ++ name ++ ": ".data ++ e ++ " */".data,
           std, path :: proc)
    else
      ("/* Fragment or header not found: ".data ++ name ++ " */".data,
       std, proc)
  else
    if env.isUber = false ∧ isIncludeSpelling value = true then
      ("#include ".data ++ value, std, proc)
    else
      (pyStripQuotes value, std, proc)

/-- The conditional-tag loop (lines 53–103): matches were found in the
original text; each replacement is computed against the current state and
substituted with `_replace_tag` into the current text. -/
def condPassF (resolve : CondMatch → Option (List Text) → List Text → TRes) :
    List CondMatch → Text → Option (List Text) → List Text → TRes
  | [], content, std, proc => (content, std, proc)
  | m :: rest, content, std, proc =>
    let r := resolve m std proc
    condPassF resolve rest (replaceTag content m.fullTag r.1) r.2.1 r.2.2

/-- The old conditional-tag loop: plain `str.replace` (line 114 there). -/
def condPassOldF (resolve : CondMatch → Option (List Text) → List Text → TRes) :
    List CondMatch → Text → Option (List Text) → List Text → TRes
  | [], content, std, proc => (content, std, proc)
  | m :: rest, content, std, proc =>
    let r := resolve m std proc
    condPassOldF resolve rest (replaceAll content m.fullTag r.1) r.2.1 r.2.2

/-- `process_template` (lines 44–117 of `generate_uber_header.py`).
Returns the expanded text together with the two threaded sets. -/
def processTemplate (env : Env) : Nat → Text → Option (List Text) →
    List Text → TRes
  | 0, _, std, proc => (fuelMarker, std, proc)
  | f + 1, content, std, proc =>
    let r := condPassF (resolveCondF (processTemplate env f) env)
      (findCondMatches content) content std proc
    (cleanupContent (simplePass env.fragments (findSimpleMatches r.1) r.1),
     r.2.1, r.2.2)

/-- `process_template` of the old script (lines 29–124 there): same scanners
and the same per-branch resolution, but conditional replacements are applied
by plain `str.replace` even when empty, an unknown simple tag is left in
place, and there is no final cleanup pass. -/
def processTemplateOld (env : Env) : Nat → Text → Option (List Text) →
    List Text → TRes
  | 0, _, std, proc => (fuelMarker, std, proc)
  | f + 1, content, std, proc =>
    let r := condPassOldF (resolveCondF (processTemplateOld env f) env)
      (findCondMatches content) content std proc
    (simplePassOld env.fragments (findSimpleMatches r.1) r.1, r.2.1, r.2.2)

/-- One conditional-tag resolution at recursion budget `f`, new script. -/
def resolveCond (env : Env) (f : Nat) (m : CondMatch)
    (std : Option (List Text)) (proc : List Text) : TRes :=
  resolveCondF (processTemplate env f) env m std proc

/-- One conditional-tag resolution at recursion budget `f`, old script. -/
def resolveCondOld (env : Env) (f : Nat) (m : CondMatch)
    (std : Option (List Text)) (proc : List Text) : TRes :=
  resolveCondF (processTemplateOld env f) env m std proc

/-! ### The uber pass (`generate_uber_file`, lines 155–166)

`sorted(...)` on Python strings is code-point lexicographic order.  The set
being sorted is duplicate-free, so the sorted list is the unique ordered
enumeration of the set, independent of the sorting algorithm; an insertion
sort is used so that runs stay kernel-computable. -/

/-- Code-point lexicographic comparison of two strings (`s1 <= s2`). -/
def lexLe : Text → Text → Bool
  | [], _ => true
  | _ :: _, [] => false
  | a :: as, b :: bs => if a < b then true else if a = b then lexLe as bs else false

/-- Insert into a lexicographically sorted list. -/
def insertLex (x : Text) : List Text → List Text
  | [] => [x]
  | y :: ys => if lexLe x y then x :: y :: ys else y :: insertLex x ys

/-- `sorted(list(std_includes))`: the set's iteration order is unspecified,
but sorting makes the result independent of it, so any list enumerating the
set may stand for `list(std_includes)`. -/
def sortTexts (l : List Text) : List Text := l.foldr insertLex []

/-- Line 158: `fragments["STANDARD_INCLUDES"] = sorted(list(std_includes))` —
the one store mutation of the run. -/
def uberFragments (fragments : List (Text × List Text)) (std : List Text) :
    List (Text × List Text) :=
  dictSet fragments "STANDARD_INCLUDES".data (sortTexts std)

/-- The recursion enters a template path at most once per top-level call, so
this fuel is never exhausted. -/
def defaultFuel (fs : List (Text × Text)) : Nat := fs.length + 1

/-- `generate_uber_file` (lines 155–166), up to the file write: install the
sorted include list as the synthetic fragment and expand the root template in
uber mode with a fresh visited set and no include collector.  Returns the
expansion together with the fragment store it ran on (to talk about the
store mutation). -/
def generateUberFile (fragments : List (Text × List Text))
    (headers : List (Text × Text)) (fs : List (Text × Text))
    (basePath rootTemplate : Text) (std : List Text) :
    Text × List (Text × List Text) :=
  let fragments2 := uberFragments fragments std
  ((processTemplate
      { fragments := fragments2, headers := headers, isUber := true,
        basePath := some basePath, fs := fs }
      (defaultFuel fs) rootTemplate none []).1,
   fragments2)

/-- The include set accumulated by a sequence of capture events
(`std_includes.add(...)` during the modular pass). -/
def captureFold (events : List Text) : List Text := events.foldl stdAdd []

/-! ## Generic lemmas about the data-model helpers -/

theorem dictGet_dictSet_self (m : List (Text × α)) (k : Text) (v : α) :
    dictGet (dictSet m k v) k = some v := by
  induction m with
  | nil => simp [dictSet, dictGet]
  | cons h t ih =>
    obtain ⟨k2, v2⟩ := h
    by_cases hk : k2 = k
    · subst hk
      simp [dictSet, dictGet]
    · simp [dictSet, dictGet, hk, ih]

theorem dictGet_dictSet_ne (m : List (Text × α)) (k k' : Text) (v : α)
    (h : k' ≠ k) :
    dictGet (dictSet m k v) k' = dictGet m k' := by
  induction m with
  | nil => simp [dictSet, dictGet, Ne.symm h]
  | cons hd t ih =>
    obtain ⟨k2, v2⟩ := hd
    by_cases hk : k2 = k
    · subst hk
      simp [dictSet, dictGet, Ne.symm h]
    · simp [dictSet, dictGet, hk, ih]

theorem mem_stdAdd (s : List Text) (x y : Text) :
    y ∈ stdAdd s x ↔ y ∈ s ∨ y = x := by
  unfold stdAdd
  split
  · constructor
    · exact Or.inl
    · rintro (h | rfl) <;> assumption
  · simp

theorem nodup_stdAdd (s : List Text) (x : Text) (h : s.Nodup) :
    (stdAdd s x).Nodup := by
  unfold stdAdd
  split
  · exact h
  · case isFalse hx => simpa [List.nodup_append, hx] using h

theorem mem_foldl_stdAdd (l : List Text) :
    ∀ (acc : List Text) (y : Text), y ∈ l.foldl stdAdd acc ↔ y ∈ acc ∨ y ∈ l := by
  induction l with
  | nil => simp
  | cons x t ih =>
    intro acc y
    simp only [List.foldl_cons, ih, mem_stdAdd, List.mem_cons]
    tauto

theorem nodup_foldl_stdAdd (l : List Text) :
    ∀ acc : List Text, acc.Nodup → (l.foldl stdAdd acc).Nodup := by
  induction l with
  | nil => exact fun acc h => h
  | cons x t ih => exact fun acc h => ih _ (nodup_stdAdd _ _ h)

theorem lexLe_total (a b : Text) : lexLe a b = true ∨ lexLe b a = true := by
  induction a generalizing b with
  | nil => exact Or.inl rfl
  | cons x xs ih =>
    cases b with
    | nil => exact Or.inr rfl
    | cons y ys =>
      rcases lt_trichotomy x y with h | h | h
      · left
        simp [lexLe, h]
      · subst h
        rcases ih ys with h2 | h2
        · left
          simp [lexLe, h2]
        · right
          simp [lexLe, h2]
      · right
        simp [lexLe, h]

theorem lexLe_trans (a b c : Text) (h1 : lexLe a b = true)
    (h2 : lexLe b c = true) : lexLe a c = true := by
  induction a generalizing b c with
  | nil => rfl
  | cons x xs ih =>
    cases b with
    | nil => simp [lexLe] at h1
    | cons y ys =>
      cases c with
      | nil => simp [lexLe] at h2
      | cons z zs =>
        simp only [lexLe] at h1 h2 ⊢
        rcases lt_trichotomy x y with hxy | hxy | hxy
        · rcases lt_trichotomy y z with hyz | hyz | hyz
          · simp [lt_trans hxy hyz]
          · subst hyz
            simp [hxy]
          · rw [if_neg (asymm hyz), if_neg (ne_of_gt hyz)] at h2
            exact absurd h2 (by simp)
        · subst hxy
          rw [if_neg (lt_irrefl x), if_pos rfl] at h1
          rcases lt_trichotomy x z with hyz | hyz | hyz
          · simp [hyz]
          · subst hyz
            rw [if_neg (lt_irrefl x), if_pos rfl] at h2 ⊢
            exact ih ys zs h1 h2
          · rw [if_neg (asymm hyz), if_neg (ne_of_gt hyz)] at h2
            exact absurd h2 (by simp)
        · rw [if_neg (asymm hxy), if_neg (ne_of_gt hxy)] at h1
          exact absurd h1 (by simp)

theorem mem_insertLex (x z : Text) (l : List Text) :
    z ∈ insertLex x l ↔ z = x ∨ z ∈ l := by
  induction l with
  | nil => simp [insertLex]
  | cons y ys ih =>
    simp only [insertLex]
    split
    · simp [List.mem_cons]
    · simp only [List.mem_cons, ih]
      tauto

theorem pairwise_insertLex (x : Text) : ∀ (l : List Text),
    List.Pairwise (fun a b => lexLe a b = true) l →
    List.Pairwise (fun a b => lexLe a b = true) (insertLex x l)
  | [], _ => by simp [insertLex]
  | y :: ys, h => by
    rcases List.pairwise_cons.mp h with ⟨hy, hys⟩
    unfold insertLex
    split
    case isTrue hxy =>
      refine List.pairwise_cons.mpr ⟨?_, h⟩
      intro b hb
      rcases List.mem_cons.mp hb with rfl | hb
      · exact hxy
      · exact lexLe_trans _ _ _ hxy (hy b hb)
    case isFalse hxy =>
      refine List.pairwise_cons.mpr ⟨?_, pairwise_insertLex x ys hys⟩
      intro b hb
      rcases (mem_insertLex x b ys).mp hb with hbx | hb
      · subst hbx
        rcases lexLe_total b y with hh | hh
        · exact absurd hh hxy
        · exact hh
      · exact hy b hb

theorem sortTexts_sorted (l : List Text) :
    List.Pairwise (fun a b => lexLe a b = true) (sortTexts l) := by
  induction l with
  | nil => exact List.Pairwise.nil
  | cons x xs ih => exact pairwise_insertLex x _ ih

theorem sortTexts_perm (l : List Text) : (sortTexts l).Perm l := by
  induction l with
  | nil => exact List.Perm.refl _
  | cons x xs ih =>
    refine List.Perm.trans ?_ (List.Perm.cons x ih)
    unfold sortTexts
    simp only [List.foldr_cons]
    generalize (xs.foldr insertLex []) = m
    induction m with
    | nil => simp [insertLex]
    | cons y ys ih2 =>
      simp only [insertLex]
      split
      · exact List.Perm.refl _
      · exact List.Perm.trans (List.Perm.cons y ih2) (List.Perm.swap x y ys)

/-! ## Lemmas about the scanners -/

theorem takeWhile_run (p : Char → Bool) (l1 : Text) (c : Char) (l2 : Text)
    (h1 : ∀ a ∈ l1, p a = true) (h2 : p c = false) :
    (l1 ++ c :: l2).takeWhile p = l1 := by
  rw [List.takeWhile_append_of_pos h1, List.takeWhile_cons, h2]
  simp

theorem dropWhile_run (p : Char → Bool) (l1 : Text) (c : Char) (l2 : Text)
    (h1 : ∀ a ∈ l1, p a = true) (h2 : p c = false) :
    (l1 ++ c :: l2).dropWhile p = c :: l2 := by
  rw [List.dropWhile_append_of_pos h1, List.dropWhile_cons, h2]
  simp

theorem dropWhile_head (p : Char → Bool) (c : Char) (l : Text)
    (h : p c = false) : (c :: l).dropWhile p = c :: l := by
  rw [List.dropWhile_cons, h]
  simp

theorem pyStrip_nil : pyStrip [] = [] := rfl

theorem pyStrip_wrap (c : Char) (N w : Text) (hc : isPySpace c = false)
    (hw : ∀ a ∈ w, isPySpace a = true) (hne : N ≠ [])
    (hN : ∀ a ∈ N, isPySpace a = false) :
    pyStrip (c :: (N ++ w)) = c :: N := by
  unfold pyStrip
  rw [dropWhile_head _ _ _ hc]
  have hrev : (c :: (N ++ w)).reverse = w.reverse ++ (N.reverse ++ [c]) := by
    simp
  rw [hrev, List.dropWhile_append_of_pos (by intro a ha; exact hw a (List.mem_reverse.mp ha))]
  obtain ⟨d, M, hM⟩ : ∃ d M, N.reverse = d :: M := by
    rcases hx : N.reverse with - | ⟨d, M⟩
    · exact absurd (by simpa using congrArg List.reverse hx) hne
    · exact ⟨d, M, rfl⟩
  rw [hM]
  have hd : isPySpace d = false := hN d (by
    have : d ∈ N.reverse := by rw [hM]; exact List.mem_cons_self d M
    exact List.mem_reverse.mp this)
  rw [List.cons_append, dropWhile_head _ _ _ hd]
  have h2 : d :: (M ++ [c]) = (d :: M) ++ [c] := by simp
  rw [h2, ← hM, List.reverse_append, List.reverse_reverse]
  simp

theorem pyStrip_ne_nil (l : Text) (c : Char) (hc : c ∈ l)
    (h : isPySpace c = false) : pyStrip l ≠ [] := by
  unfold pyStrip
  intro hcontra
  have h1 : l.dropWhile isPySpace = [] ∨
      (l.dropWhile isPySpace).reverse.dropWhile isPySpace = [] := by
    rcases hx : (l.dropWhile isPySpace).reverse.dropWhile isPySpace with - | ⟨d, M⟩
    · exact Or.inr rfl
    · rw [hx] at hcontra
      simp at hcontra
  rcases h1 with h1 | h1
  · have := List.dropWhile_eq_nil_iff.mp h1 c hc
    rw [h] at this
    exact Bool.false_ne_true this
  · have hmem : c ∈ (l.dropWhile isPySpace).reverse := by
      rw [List.mem_reverse]
      have h2 : ∀ a ∈ l.takeWhile isPySpace, isPySpace a = true :=
        fun a ha => List.mem_takeWhile_imp ha
      rcases List.mem_append.mp
        ((List.takeWhile_append_dropWhile isPySpace l) ▸ hc) with hm | hm
      · exact absurd (h2 c hm) (by simp [h])
      · exact hm
    have := List.dropWhile_eq_nil_iff.mp h1 c hmem
    rw [h] at this
    exact Bool.false_ne_true this

/-- The scanners consume a skipped region character by character. -/
theorem condScan_skip (l r : Text) : condScan l.length (l ++ r) = condScan 0 r := by
  induction l with
  | nil => rfl
  | cons c t ih => exact ih

theorem condScan_skip_all (r : Text) : ∀ k, r.length ≤ k → condScan k r = [] := by
  induction r with
  | nil => intro k _; cases k <;> rfl
  | cons c t ih =>
    intro k hk
    match k, hk with
    | Nat.succ k2, hk => exact ih k2 (by simpa using hk)

theorem simpleScan_skip (l r : Text) :
    simpleScan l.length (l ++ r) = simpleScan 0 r := by
  induction l with
  | nil => rfl
  | cons c t ih => exact ih

theorem dropScan_skip (tag : Text) (nl : Bool) (l r : Text) :
    dropScan tag l.length nl (l ++ r) = dropScan tag 0 nl r := by
  induction l with
  | nil => rfl
  | cons c t ih => exact ih

theorem replaceScan_skip (pat repl : Text) (l r : Text) :
    replaceScan pat repl l.length (l ++ r) = replaceScan pat repl 0 r := by
  induction l with
  | nil => rfl
  | cons c t ih => exact ih

theorem replaceScan_skip_all (pat repl : Text) (r : Text) :
    ∀ k, r.length ≤ k → replaceScan pat repl k r = [] := by
  induction r with
  | nil => intro k _; cases k <;> rfl
  | cons c t ih =>
    intro k hk
    match k, hk with
    | Nat.succ k2, hk => exact ih k2 (by simpa using hk)

/-- `s.replace(s, repl) = repl` for non-empty `s`. -/
theorem replaceAll_self (t repl : Text) (h : t ≠ []) :
    replaceAll t t repl = repl := by
  unfold replaceAll
  rw [if_neg h]
  match t, h with
  | c :: rest, h =>
    show replaceScan (c :: rest) repl 0 (c :: rest) = repl
    rw [show replaceScan (c :: rest) repl 0 (c :: rest) =
      if (c :: rest).isPrefixOf (c :: rest) ∧ (c :: rest) ≠ [] then
        repl ++ replaceScan (c :: rest) repl ((c :: rest).length - 1) rest
      else c :: replaceScan (c :: rest) repl 0 rest from rfl]
    rw [if_pos ⟨List.isPrefixOf_iff_prefix.mpr (List.prefix_refl _), by simp⟩]
    rw [show (c :: rest).length - 1 = rest.length by simp]
    rw [replaceScan_skip_all _ _ _ _ (Nat.le_refl _)]
    simp

/-! ## Characterisation of `_cleanup_content` -/

/-- Trailing horizontal whitespace of a line, removed (specification helper
for describing what the cleanup pass does to one line). -/
def rstripHT (l : Text) : Text := (l.reverse.dropWhile isHT).reverse

theorem rstripHT_all (l : Text) (h : ∀ c ∈ l, isHT c = true) :
    rstripHT l = [] := by
  unfold rstripHT
  have h2 : l.reverse.dropWhile isHT = [] :=
    List.dropWhile_eq_nil_iff.mpr (fun x hx => h x (List.mem_reverse.mp hx))
  rw [h2]
  rfl

theorem rstripHT_block (u : Text) (c : Char) (v : Text) (hc : isHT c = false) :
    rstripHT (u ++ c :: v) = u ++ c :: rstripHT v := by
  unfold rstripHT
  rw [List.reverse_append, List.reverse_cons, List.append_assoc,
    List.dropWhile_append]
  split
  case isTrue hemp =>
    rw [List.isEmpty_iff] at hemp
    rw [hemp, show ([c] ++ u.reverse : Text) = c :: u.reverse from rfl,
      dropWhile_head _ _ _ hc]
    simp
  case isFalse hemp =>
    simp

theorem cleanupScan_flat : ∀ (a pend : Text), '\n' ∉ a → '\r' ∉ a →
    cleanupScan pend a = pend.reverse ++ a := by
  intro a
  induction a with
  | nil =>
    intro pend _ _
    simp [cleanupScan]
  | cons c rest ih =>
    intro pend hn hr
    have hcn : ¬ c = '\n' := fun h => hn (h ▸ List.mem_cons_self c rest)
    have hcr : ¬ c = '\r' := fun h => hr (h ▸ List.mem_cons_self c rest)
    have hn2 : '\n' ∉ rest := fun h => hn (List.mem_cons_of_mem c h)
    have hr2 : '\r' ∉ rest := fun h => hr (List.mem_cons_of_mem c h)
    rw [cleanupScan.eq_4 pend c rest (fun h => hcn h) (fun _ h _ => hcr h)]
    split
    · rw [ih (c :: pend) hn2 hr2]
      simp
    · rw [ih [] hn2 hr2]
      simp

theorem cleanupScan_line : ∀ (a pend b : Text), '\n' ∉ a → '\r' ∉ a →
    (∀ x ∈ pend, isHT x = true) →
    cleanupScan pend (a ++ '\n' :: b) =
      rstripHT (pend.reverse ++ a) ++ '\n' :: cleanupScan [] b := by
  intro a
  induction a with
  | nil =>
    intro pend b _ _ hp
    rw [List.nil_append, cleanupScan.eq_2,
      show (pend.reverse ++ [] : Text) = pend.reverse by simp,
      rstripHT_all _ (fun c hc => hp c (List.mem_reverse.mp hc))]
    rfl
  | cons c rest ih =>
    intro pend b hn hr hp
    have hcn : ¬ c = '\n' := fun h => hn (h ▸ List.mem_cons_self c rest)
    have hcr : ¬ c = '\r' := fun h => hr (h ▸ List.mem_cons_self c rest)
    have hn2 : '\n' ∉ rest := fun h => hn (List.mem_cons_of_mem c h)
    have hr2 : '\r' ∉ rest := fun h => hr (List.mem_cons_of_mem c h)
    rw [List.cons_append,
      cleanupScan.eq_4 pend c (rest ++ '\n' :: b) (fun h => hcn h) (fun _ h _ => hcr h)]
    split
    case isTrue hht =>
      rw [ih (c :: pend) b hn2 hr2 ?side]
      case side =>
        intro x hx
        rcases List.mem_cons.mp hx with rfl | hx
        · exact hht
        · exact hp x hx
      simp
    case isFalse hht =>
      rw [ih [] b hn2 hr2 (by intro x hx; cases hx)]
      rw [rstripHT_block _ _ _ (by simpa using hht)]
      simp

/-! ## Character-class facts used by the symbolic proofs -/

theorem nameChar_ne {c d : Char} (h : isNameChar c = true)
    (hd : isNameChar d = false) : c ≠ d := by
  intro he
  rw [he, hd] at h
  exact Bool.false_ne_true h

theorem nameChar_not_space {c : Char} (h : isNameChar c = true) :
    isPySpace c = false := by
  unfold isPySpace
  rw [beq_eq_false_iff_ne.mpr (nameChar_ne h (by decide)),
    beq_eq_false_iff_ne.mpr (nameChar_ne h (by decide)),
    beq_eq_false_iff_ne.mpr (nameChar_ne h (by decide)),
    beq_eq_false_iff_ne.mpr (nameChar_ne h (by decide)),
    beq_eq_false_iff_ne.mpr (nameChar_ne h (by decide)),
    beq_eq_false_iff_ne.mpr (nameChar_ne h (by decide))]
  rfl

/-! ## No-match lemmas for the scanners -/

theorem matchCondAt_none {c : Char} (rest : Text) (h : c ≠ '[') :
    matchCondAt (c :: rest) = none := by
  unfold matchCondAt
  split
  · case h_1 r0 heq =>
    rw [List.cons.injEq] at heq
    exact absurd heq.1 h
  · rfl

theorem matchSimpleAt_none {c : Char} (rest : Text) (h : c ≠ '[') :
    matchSimpleAt (c :: rest) = none := by
  unfold matchSimpleAt
  split
  · case h_1 r0 heq =>
    rw [List.cons.injEq] at heq
    exact absurd heq.1 h
  · rfl

theorem findCondMatches_of_no_bracket (t : Text) (h : '[' ∉ t) :
    findCondMatches t = [] := by
  unfold findCondMatches
  induction t with
  | nil => rfl
  | cons c rest ih =>
    have hc : c ≠ '[' := fun he => h (he ▸ List.mem_cons_self c rest)
    have h2 : '[' ∉ rest := fun hm => h (List.mem_cons_of_mem c hm)
    rw [show condScan 0 (c :: rest) =
      match matchCondAt (c :: rest) with
      | some (m, r) => m :: condScan ((c :: rest).length - r.length - 1) rest
      | none => condScan 0 rest from rfl]
    rw [matchCondAt_none rest hc]
    exact ih h2

theorem findSimpleMatches_of_no_bracket (t : Text) (h : '[' ∉ t) :
    findSimpleMatches t = [] := by
  unfold findSimpleMatches
  induction t with
  | nil => rfl
  | cons c rest ih =>
    have hc : c ≠ '[' := fun he => h (he ▸ List.mem_cons_self c rest)
    have h2 : '[' ∉ rest := fun hm => h (List.mem_cons_of_mem c hm)
    rw [show simpleScan 0 (c :: rest) =
      match matchSimpleAt (c :: rest) with
      | some (m, r) => m :: simpleScan ((c :: rest).length - r.length - 1) rest
      | none => simpleScan 0 rest from rfl]
    rw [matchSimpleAt_none rest hc]
    exact ih h2

/-! ## Claim C9: the final cleanup pass -/

/-- C9 (counterexample).  The claim says the cleanup removes trailing
horizontal whitespace from *every* line including the last; on `"x \ny "`
the code leaves the final (unterminated) line's trailing space in place:
the result is `"x\ny "`, not the `"x\ny"` the claim demands. -/
theorem cleanup_keeps_last_line :
    cleanupContent "x \ny ".data = "x\ny ".data ∧
    cleanupContent "x \ny ".data ≠ "x\ny".data := by
  constructor
  · decide
  · decide

/-- C9 (amended).  `_cleanup_content` removes trailing horizontal whitespace
from every line that is terminated by a line ending, keeps the line endings
themselves (so no blank lines are removed or merged), and leaves a final
unterminated line — including its trailing whitespace — untouched. -/
theorem cleanup_per_line (a b : Text) (hn : '\n' ∉ a) (hr : '\r' ∉ a) :
    cleanupContent (a ++ '\n' :: b) = rstripHT a ++ '\n' :: cleanupContent b ∧
    cleanupContent a = a := by
  constructor
  · have h := cleanupScan_line a [] b hn hr (by intro x hx; cases hx)
    simpa [cleanupContent] using h
  · have h := cleanupScan_flat a [] hn hr
    simpa [cleanupContent] using h

/-- Witness for `cleanup_per_line` at a concrete input. -/
theorem cleanup_per_line_witness :
    ('\n' ∉ "ab ".data ∧ '\r' ∉ "ab ".data) ∧
    (cleanupContent ("ab ".data ++ '\n' :: "q ".data) =
      rstripHT "ab ".data ++ '\n' :: cleanupContent "q ".data ∧
    cleanupContent "ab ".data = "ab ".data) :=
  ⟨by decide, cleanup_per_line "ab ".data "q ".data (by decide) (by decide)⟩

/-! ## Branch lemmas for the conditional-tag resolver (uber mode) -/

theorem resolveCondF_notFound (recur : Text → Option (List Text) → List Text → TRes)
    (env : Env) (m : CondMatch) (std : Option (List Text)) (proc : List Text)
    (H : Text)
    (huber : env.isUber = true)
    (hval : condValue m env.isUber = '@' :: H)
    (hcap : ("STDCAPTURE".data).isPrefixOf H = false)
    (hsi : H ≠ "STANDARD_INCLUDES".data)
    (ham : H ≠ "ASSERT_MACRO".data)
    (hfr : dictGet env.fragments H = none)
    (hhd : dictGet env.headers H = none) :
    resolveCondF recur env m std proc =
      ("/* Fragment or header not found: ".data ++ H ++ " */".data, std, proc) := by
  have hs1 : "@STDCAPTURE".data = '@' :: "STDCAPTURE".data := rfl
  have hs2 : "@".data = '@' :: ([] : Text) := rfl
  rw [huber] at hval
  simp only [resolveCondF, huber, hval, hs1, hs2, List.isPrefixOf_cons₂_self,
    List.isPrefixOf_nil_left, hcap, List.drop_succ_cons, List.drop_nil,
    List.drop_zero, List.tail_cons, dictHas, hfr, hhd, Option.isSome_none]
  simp [hsi, ham]

theorem resolveCondF_assertMacro (recur : Text → Option (List Text) → List Text → TRes)
    (env : Env) (m : CondMatch) (std : Option (List Text)) (proc : List Text)
    (huber : env.isUber = true)
    (hval : condValue m env.isUber = "@ASSERT_MACRO".data) :
    resolveCondF recur env m std proc =
      (joinNL (dictGetD env.fragments "ASSERT_MACRO".data []), std, proc) := by
  have hs1 : "@STDCAPTURE".data = '@' :: "STDCAPTURE".data := rfl
  have hs2 : "@".data = '@' :: ([] : Text) := rfl
  have hs3 : "@ASSERT_MACRO".data = '@' :: "ASSERT_MACRO".data := rfl
  have hcap : ("STDCAPTURE".data).isPrefixOf "ASSERT_MACRO".data = false := by decide
  have hsi : "ASSERT_MACRO".data ≠ "STANDARD_INCLUDES".data := by decide
  rw [huber] at hval
  rw [hs3] at hval
  simp only [resolveCondF, huber, hval, hs1, hs2, List.isPrefixOf_cons₂_self,
    List.isPrefixOf_nil_left, hcap, List.drop_succ_cons, List.drop_nil,
    List.drop_zero, List.tail_cons]
  simp [hsi]

theorem resolveCondF_stdIncludes (recur : Text → Option (List Text) → List Text → TRes)
    (env : Env) (m : CondMatch) (std : Option (List Text)) (proc : List Text)
    (huber : env.isUber = true)
    (hval : condValue m env.isUber = "@STANDARD_INCLUDES".data) :
    resolveCondF recur env m std proc =
      (joinNL ((dictGetD env.fragments "STANDARD_INCLUDES".data []).map
        (fun inc => "#include ".data ++ inc)), std, proc) := by
  have hs1 : "@STDCAPTURE".data = '@' :: "STDCAPTURE".data := rfl
  have hs2 : "@".data = '@' :: ([] : Text) := rfl
  have hs3 : "@STANDARD_INCLUDES".data = '@' :: "STANDARD_INCLUDES".data := rfl
  have hcap : ("STDCAPTURE".data).isPrefixOf "STANDARD_INCLUDES".data = false := by
    decide
  rw [huber] at hval
  rw [hs3] at hval
  simp only [resolveCondF, huber, hval, hs1, hs2, List.isPrefixOf_cons₂_self,
    List.isPrefixOf_nil_left, hcap, List.drop_succ_cons, List.drop_nil,
    List.drop_zero, List.tail_cons]
  simp

theorem resolveCondF_header (recur : Text → Option (List Text) → List Text → TRes)
    (env : Env) (m : CondMatch) (std : Option (List Text)) (proc : List Text)
    (H file base : Text)
    (huber : env.isUber = true)
    (hval : condValue m env.isUber = '@' :: H)
    (hcap : ("STDCAPTURE".data).isPrefixOf H = false)
    (hsi : H ≠ "STANDARD_INCLUDES".data)
    (ham : H ≠ "ASSERT_MACRO".data)
    (hfr : dictGet env.fragments H = none)
    (hhd : dictGet env.headers H = some file)
    (hbase : env.basePath = some base) :
    resolveCondF recur env m std proc =
      (if templatePath base (nsOf H) file ∈ proc then
        ("/* Circular reference detected: ".data ++ H ++ " */".data, std, proc)
      else
        match fsRead env.fs (templatePath base (nsOf H) file) with
        | Except.ok t => recur t std (templatePath base (nsOf H) file :: proc)
        | Except.error e =>
          ("/* Error processing ".data ++ H ++ ": ".data ++ e ++ " */".data,
           std, templatePath base (nsOf H) file :: proc)) := by
  have hs1 : "@STDCAPTURE".data = '@' :: "STDCAPTURE".data := rfl
  have hs2 : "@".data = '@' :: ([] : Text) := rfl
  rw [huber] at hval
  simp only [resolveCondF, huber, hval, hs1, hs2, List.isPrefixOf_cons₂_self,
    List.isPrefixOf_nil_left, hcap, List.drop_succ_cons, List.drop_nil,
    List.drop_zero, List.tail_cons, dictHas, dictGetD, hfr, hhd, hbase,
    Option.isSome_none, Option.isSome_some, Option.getD_some]
  simp [hsi, ham]

/-! ## Claim C3: missing references -/

/-- C3 (counterexample).  The claim says *every* tag (conditional or simple)
naming a missing fragment/header yields an inline placeholder comment.  A
simple tag with an unknown name resolves to the empty string instead (lines
112–113), so its line is removed and no placeholder naming `NOPE` appears:
expanding `"[[NOPE]]"` against empty stores yields the empty output. -/
theorem missing_simple_tag_no_placeholder :
    (processTemplate ⟨[], [], true, none, []⟩ 1 "[[NOPE]]".data none []).1 = [] ∧
    ¬ ("NOPE".data <:+:
      (processTemplate ⟨[], [], true, none, []⟩ 1 "[[NOPE]]".data none []).1) := by
  constructor
  · decide
  · decide

/-- C3 (amended).  For a *conditional* tag in uber mode whose active branch is
the reference `@H`, with `H` not a fragment and not in the header registry —
and `H` none of the special-cased names (`STANDARD_INCLUDES`, `ASSERT_MACRO`,
a `STDCAPTURE`-prefixed name) — resolution never raises and returns the
inline placeholder comment naming `H`.  (Simple tags and the special names
fall outside the claim: they resolve to the empty string, see C10.) -/
theorem missing_reference_placeholder (env : Env) (f : Nat) (m : CondMatch)
    (std : Option (List Text)) (proc : List Text) (H : Text)
    (huber : env.isUber = true)
    (hval : condValue m env.isUber = '@' :: H)
    (hcap : ("STDCAPTURE".data).isPrefixOf H = false)
    (hsi : H ≠ "STANDARD_INCLUDES".data)
    (ham : H ≠ "ASSERT_MACRO".data)
    (hfr : dictGet env.fragments H = none)
    (hhd : dictGet env.headers H = none) :
    resolveCond env f m std proc =
      ("/* Fragment or header not found: ".data ++ H ++ " */".data, std, proc) :=
  resolveCondF_notFound _ env m std proc H huber hval hcap hsi ham hfr hhd

/-- Witness for `missing_reference_placeholder` at a concrete input
(the tag `[[@UBER ? @NOPE : x]]` in uber mode, empty stores). -/
theorem missing_reference_placeholder_witness :
    resolveCond ⟨[], [], true, none, []⟩ 0
      ⟨"[[@UBER ? @NOPE : x]]".data, "UBER".data, "@NOPE ".data, "x".data⟩
      none [] =
      ("/* Fragment or header not found: ".data ++ "NOPE".data ++ " */".data,
       none, []) :=
  missing_reference_placeholder ⟨[], [], true, none, []⟩ 0
    ⟨"[[@UBER ? @NOPE : x]]".data, "UBER".data, "@NOPE ".data, "x".data⟩
    none [] "NOPE".data rfl (by decide) (by decide) (by decide) (by decide)
    rfl rfl

/-! ## Claim C10: the `ASSERT_MACRO` special case -/

/-- C10.  In conditional resolution the name `ASSERT_MACRO` is special-cased:
the resolver returns the joined `ASSERT_MACRO` fragment lines via
`fragments.get("ASSERT_MACRO", [])` without ever reaching the not-found
branch, so when the fragment store lacks `ASSERT_MACRO` the replacement is
the empty string (whose tag line `_replace_tag` then removes); every other
name that is neither special, nor a fragment, nor a registered header yields
the `Fragment or header not found` placeholder instead. -/
theorem assert_macro_special_case :
    (∀ (env : Env) (f : Nat) (m : CondMatch) (std : Option (List Text))
      (proc : List Text),
      env.isUber = true →
      condValue m env.isUber = "@ASSERT_MACRO".data →
      resolveCond env f m std proc =
        (joinNL (dictGetD env.fragments "ASSERT_MACRO".data []), std, proc)) ∧
    (∀ (env : Env) (f : Nat) (m : CondMatch) (std : Option (List Text))
      (proc : List Text),
      env.isUber = true →
      condValue m env.isUber = "@ASSERT_MACRO".data →
      dictGet env.fragments "ASSERT_MACRO".data = none →
      resolveCond env f m std proc = ([], std, proc)) ∧
    (∀ (env : Env) (f : Nat) (m : CondMatch) (std : Option (List Text))
      (proc : List Text) (H : Text),
      env.isUber = true →
      condValue m env.isUber = '@' :: H →
      ("STDCAPTURE".data).isPrefixOf H = false →
      H ≠ "STANDARD_INCLUDES".data →
      H ≠ "ASSERT_MACRO".data →
      dictGet env.fragments H = none →
      dictGet env.headers H = none →
      resolveCond env f m std proc =
        ("/* Fragment or header not found: ".data ++ H ++ " */".data, std, proc)) := by
  refine ⟨?_, ?_, ?_⟩
  · intro env f m std proc huber hval
    exact resolveCondF_assertMacro _ env m std proc huber hval
  · intro env f m std proc huber hval habs
    rw [show resolveCond env f m std proc =
      resolveCondF (processTemplate env f) env m std proc from rfl]
    rw [resolveCondF_assertMacro _ env m std proc huber hval]
    rw [show dictGetD env.fragments "ASSERT_MACRO".data [] = [] by
      simp [dictGetD, habs]]
    rfl
  · intro env f m std proc H huber hval hcap hsi ham hfr hhd
    exact resolveCondF_notFound _ env m std proc H huber hval hcap hsi ham hfr hhd

/-- Witness for `assert_macro_special_case` at concrete inputs. -/
theorem assert_macro_special_case_witness :
    resolveCond ⟨[], [], true, none, []⟩ 0
      ⟨"[[@UBER ? @ASSERT_MACRO : x]]".data, "UBER".data, "@ASSERT_MACRO ".data,
       "x".data⟩ none [] = ([], none, []) :=
  assert_macro_special_case.2.1 ⟨[], [], true, none, []⟩ 0
    ⟨"[[@UBER ? @ASSERT_MACRO : x]]".data, "UBER".data, "@ASSERT_MACRO ".data,
     "x".data⟩ none [] rfl (by decide) rfl

/-! ## Claim C4: when the circular-reference diagnostic fires -/

/-- C4 (counterexample).  A diamond dependency, not a cycle: the root
references headers `B` and `C`, each of which references `D`.  The visited
set is never popped when a recursive expansion returns, so the second
reference to the already-completed `D` is reported as
`/* Circular reference detected: D */` even though no header refers back to
itself.  The claim says a diamond is *not* reported as circular. -/
theorem diamond_reported_circular :
    (processTemplate
      ⟨[], [("B".data, "b.tmpl".data), ("C".data, "c.tmpl".data),
            ("D".data, "d.tmpl".data)], true, some "..".data,
        [ (templatePath "..".data (nsOf "B".data) "b.tmpl".data,
            "[[@UBER ? @D : x]]".data),
          (templatePath "..".data (nsOf "C".data) "c.tmpl".data,
            "[[@UBER ? @D : x]]".data),
          (templatePath "..".data (nsOf "D".data) "d.tmpl".data, "Q".data) ]⟩
      4 "[[@UBER ? @B : x]]\n[[@UBER ? @C : x]]".data none []).1 =
    "Q\n/* Circular reference detected: D */".data := by
  decide

/-- C4 (amended).  In uber mode, resolving a conditional tag whose active
branch references registry entry `H` produces the circular-reference
diagnostic exactly when the computed template path is already in the visited
set — a set that only ever grows during one top-level expansion (paths are
never removed when a recursive expansion completes), so a completed header
referenced again from a disjoint branch is also reported; otherwise the
template is read and recursively expanded (the path being added first), or an
error placeholder is emitted if the read fails. -/
theorem circular_detection_visited (env : Env) (f : Nat) (m : CondMatch)
    (std : Option (List Text)) (proc : List Text) (H file base : Text)
    (huber : env.isUber = true)
    (hval : condValue m env.isUber = '@' :: H)
    (hcap : ("STDCAPTURE".data).isPrefixOf H = false)
    (hsi : H ≠ "STANDARD_INCLUDES".data)
    (ham : H ≠ "ASSERT_MACRO".data)
    (hfr : dictGet env.fragments H = none)
    (hhd : dictGet env.headers H = some file)
    (hbase : env.basePath = some base) :
    resolveCond env f m std proc =
      (if templatePath base (nsOf H) file ∈ proc then
        ("/* Circular reference detected: ".data ++ H ++ " */".data, std, proc)
      else
        match fsRead env.fs (templatePath base (nsOf H) file) with
        | Except.ok t =>
          processTemplate env f t std (templatePath base (nsOf H) file :: proc)
        | Except.error e =>
          ("/* Error processing ".data ++ H ++ ": ".data ++ e ++ " */".data,
           std, templatePath base (nsOf H) file :: proc)) :=
  resolveCondF_header _ env m std proc H file base huber hval hcap hsi ham
    hfr hhd hbase

/-- Witness for `circular_detection_visited` at a concrete input (the path is
already in the visited set, so the diagnostic fires). -/
theorem circular_detection_visited_witness :
    resolveCond
      ⟨[], [("B".data, "b.tmpl".data)], true, some "..".data, []⟩ 0
      ⟨"[[@UBER ? @B : x]]".data, "UBER".data, "@B ".data, "x".data⟩
      none [templatePath "..".data (nsOf "B".data) "b.tmpl".data] =
      (if templatePath "..".data (nsOf "B".data) "b.tmpl".data ∈
          [templatePath "..".data (nsOf "B".data) "b.tmpl".data] then
        ("/* Circular reference detected: ".data ++ "B".data ++ " */".data,
         none, [templatePath "..".data (nsOf "B".data) "b.tmpl".data])
      else
        match fsRead [] (templatePath "..".data (nsOf "B".data) "b.tmpl".data) with
        | Except.ok t =>
          processTemplate
            ⟨[], [("B".data, "b.tmpl".data)], true, some "..".data, []⟩ 0 t none
            (templatePath "..".data (nsOf "B".data) "b.tmpl".data ::
              [templatePath "..".data (nsOf "B".data) "b.tmpl".data])
        | Except.error e =>
          ("/* Error processing ".data ++ "B".data ++ ": ".data ++ e ++ " */".data,
           none, templatePath "..".data (nsOf "B".data) "b.tmpl".data ::
             [templatePath "..".data (nsOf "B".data) "b.tmpl".data])) :=
  circular_detection_visited
    ⟨[], [("B".data, "b.tmpl".data)], true, some "..".data, []⟩ 0
    ⟨"[[@UBER ? @B : x]]".data, "UBER".data, "@B ".data, "x".data⟩
    none [templatePath "..".data (nsOf "B".data) "b.tmpl".data]
    "B".data "b.tmpl".data "..".data
    rfl (by decide) (by decide) (by decide) (by decide) rfl rfl rfl

/-! ## Claim C7: mutation of the fragment store -/

/-- C7 (counterexample).  The claim says the fragment store is never mutated
after configuration load; but `generate_uber_file` assigns
`fragments["STANDARD_INCLUDES"] = sorted(list(std_includes))` (line 158):
starting from an empty store, the store the uber pass runs on is not empty. -/
theorem fragments_mutated :
    (generateUberFile [] [] [] "..".data [] ["<v>".data]).2 =
      [("STANDARD_INCLUDES".data, ["<v>".data])] ∧
    (generateUberFile [] [] [] "..".data [] ["<v>".data]).2 ≠ [] := by
  constructor
  · decide
  · decide

/-- C7 (amended).  The header registry is read-only and `process_template`
never writes to either store; the single store mutation of a run is the uber
pass installing the sorted include list under `STANDARD_INCLUDES`: every
other key of the fragment store is unchanged, and that one key now holds
exactly `sorted(list(std_includes))`. -/
theorem store_mutation_exact (fragments : List (Text × List Text))
    (headers : List (Text × Text)) (fs : List (Text × Text))
    (basePath root : Text) (std : List Text) (k : Text)
    (hk : k ≠ "STANDARD_INCLUDES".data) :
    dictGet (generateUberFile fragments headers fs basePath root std).2 k =
      dictGet fragments k ∧
    dictGet (generateUberFile fragments headers fs basePath root std).2
      "STANDARD_INCLUDES".data = some (sortTexts std) := by
  constructor
  · exact dictGet_dictSet_ne fragments _ k (sortTexts std) hk
  · exact dictGet_dictSet_self fragments _ (sortTexts std)

/-- Witness for `store_mutation_exact` at a concrete input. -/
theorem store_mutation_exact_witness :
    dictGet (generateUberFile [("F".data, ["x".data])] [] [] "..".data []
      ["<v>".data]).2 "F".data = dictGet [("F".data, ["x".data])] "F".data ∧
    dictGet (generateUberFile [("F".data, ["x".data])] [] [] "..".data []
      ["<v>".data]).2 "STANDARD_INCLUDES".data = some (sortTexts ["<v>".data]) :=
  store_mutation_exact [("F".data, ["x".data])] [] [] "..".data []
    ["<v>".data] "F".data (by decide)

/-! ## Claim C6: the `[[@UBER ? @STDCAPTURE : <vector>]]` scenario -/

/-- C6.  In modular mode the tag produces `#include <vector>` and `<vector>`
enters the include set; in uber mode the same tag produces an empty
replacement for its own occurrence (the output is empty); and in uber mode a
conditional tag whose active branch is `@STANDARD_INCLUDES`, with the
synthetic fragment holding exactly `<vector>`, renders `#include <vector>`
exactly once. -/
theorem stdcapture_scenario :
    processTemplate ⟨[], [], false, none, []⟩ 1
      "[[@UBER ? @STDCAPTURE : <vector>]]".data (some []) [] =
      ("#include <vector>".data, some ["<vector>".data], []) ∧
    processTemplate ⟨[], [], true, none, []⟩ 1
      "[[@UBER ? @STDCAPTURE : <vector>]]".data none [] = ([], none, []) ∧
    processTemplate ⟨[("STANDARD_INCLUDES".data, ["<vector>".data])], [],
        true, none, []⟩ 1
      "[[@UBER ? @STANDARD_INCLUDES : x]]".data none [] =
      ("#include <vector>".data, none, []) := by
  refine ⟨?_, ?_, ?_⟩
  · decide
  · decide
  · decide

/-! ## Claim C8: the two script variants -/

/-- C8 (counterexample).  The two variants are *not* one implementation: on
the template `"[[NOPE]]"` with empty stores, the new script resolves the
unknown simple tag to the empty string and removes its line (output `""`),
while the old script leaves the tag verbatim (output `"[[NOPE]]"`). -/
theorem variants_differ :
    (processTemplate ⟨[], [], true, none, []⟩ 1 "[[NOPE]]".data none []).1 ≠
    (processTemplateOld ⟨[], [], true, none, []⟩ 1 "[[NOPE]]".data none []).1 := by
  decide

/-- The resolution of one conditional tag reaches the successful
recursive-header-expansion call — the only point where the two script
variants' resolvers differ. -/
def headerRecursionTriggered (env : Env) (m : CondMatch)
    (std : Option (List Text)) (proc : List Text) : Prop :=
  let value := condValue m env.isUber
  ¬ (("@STDCAPTURE".data).isPrefixOf (pyStrip m.thenB) = true ∧
      std.isSome = true ∧ env.isUber = false) ∧
  ¬ (("@STDCAPTURE".data).isPrefixOf value = true) ∧
  ("@".data).isPrefixOf value = true ∧
  ¬ (value.drop 1 = "STANDARD_INCLUDES".data ∧ env.isUber = true) ∧
  value.drop 1 ≠ "ASSERT_MACRO".data ∧
  ¬ (dictHas env.fragments (value.drop 1) = true) ∧
  (dictHas env.headers (value.drop 1) = true ∧ env.basePath.isSome = true ∧
    env.isUber = true) ∧
  templatePath (env.basePath.getD []) (nsOf (value.drop 1))
    (dictGetD env.headers (value.drop 1) []) ∉ proc ∧
  dictHas env.fs (templatePath (env.basePath.getD []) (nsOf (value.drop 1))
    (dictGetD env.headers (value.drop 1) [])) = true

/-- C8 (amended).  Branch for branch, the two variants compute the same
replacement text and the same include-set and visited-set updates for every
conditional tag whose resolution does not enter a successful recursive header
expansion; the whole-template expanders differ (empty replacements, unknown
simple tags, final cleanup — see the counterexample). -/
theorem resolver_agreement (env : Env) (f : Nat) (m : CondMatch)
    (std : Option (List Text)) (proc : List Text)
    (hno : ¬ headerRecursionTriggered env m std proc) :
    resolveCond env f m std proc = resolveCondOld env f m std proc := by
  unfold resolveCond resolveCondOld resolveCondF
  by_cases h1 : ("@STDCAPTURE".data).isPrefixOf (pyStrip m.thenB) = true ∧
      std.isSome = true ∧ env.isUber = false
  · rw [if_pos h1, if_pos h1]
  by_cases h2 : ("@STDCAPTURE".data).isPrefixOf (condValue m env.isUber) = true
  · rw [if_neg h1, if_neg h1, if_pos h2, if_pos h2]
  by_cases h3 : ("@".data).isPrefixOf (condValue m env.isUber) = true
  case neg =>
    rw [if_neg h1, if_neg h1, if_neg h2, if_neg h2, if_neg h3, if_neg h3]
  rw [if_neg h1, if_neg h1, if_neg h2, if_neg h2, if_pos h3, if_pos h3]
  by_cases h4 : (condValue m env.isUber).drop 1 = "STANDARD_INCLUDES".data ∧
      env.isUber = true
  · rw [if_pos h4, if_pos h4]
  by_cases h5 : (condValue m env.isUber).drop 1 = "ASSERT_MACRO".data
  · rw [if_neg h4, if_neg h4, if_pos h5, if_pos h5]
  by_cases h6 : dictHas env.fragments ((condValue m env.isUber).drop 1) = true
  · rw [if_neg h4, if_neg h4, if_neg h5, if_neg h5, if_pos h6, if_pos h6]
  by_cases h7 : dictHas env.headers ((condValue m env.isUber).drop 1) = true ∧
      env.basePath.isSome = true ∧ env.isUber = true
  case neg =>
    rw [if_neg h4, if_neg h4, if_neg h5, if_neg h5, if_neg h6, if_neg h6,
      if_neg h7, if_neg h7]
  rw [if_neg h4, if_neg h4, if_neg h5, if_neg h5, if_neg h6, if_neg h6,
    if_pos h7, if_pos h7]
  by_cases h8 : templatePath (env.basePath.getD []) (nsOf ((condValue m env.isUber).drop 1))
      (dictGetD env.headers ((condValue m env.isUber).drop 1) []) ∈ proc
  · rw [if_pos h8, if_pos h8]
  rw [if_neg h8, if_neg h8]
  rcases hread : fsRead env.fs (templatePath (env.basePath.getD [])
      (nsOf ((condValue m env.isUber).drop 1))
      (dictGetD env.headers ((condValue m env.isUber).drop 1) [])) with e | t
  · rfl
  · exfalso
    apply hno
    refine ⟨h1, h2, h3, h4, h5, h6, h7, h8, ?_⟩
    unfold fsRead at hread
    unfold dictHas
    rcases hd : dictGet env.fs (templatePath (env.basePath.getD [])
        (nsOf ((condValue m env.isUber).drop 1))
        (dictGetD env.headers ((condValue m env.isUber).drop 1) [])) with - | t2
    · rw [hd] at hread
      simp at hread
    · rfl

/-- Witness for `resolver_agreement` at a concrete input. -/
theorem resolver_agreement_witness :
    resolveCond ⟨[], [], true, none, []⟩ 0
      ⟨"[[@UBER ? a : b]]".data, "UBER".data, "a ".data, "b".data⟩ none [] =
    resolveCondOld ⟨[], [], true, none, []⟩ 0
      ⟨"[[@UBER ? a : b]]".data, "UBER".data, "a ".data, "b".data⟩ none [] :=
  resolver_agreement ⟨[], [], true, none, []⟩ 0
    ⟨"[[@UBER ? a : b]]".data, "UBER".data, "a ".data, "b".data⟩ none []
    (by intro h; exact absurd h.2.2.1 (by decide))

/-! ## Lemmas about `_replace_tag`'s line-removal pass -/

theorem matchTagLineAt_occurs {tag s : Text} {p : Text × Bool}
    (hm : matchTagLineAt tag s = some p) : tag <:+: s := by
  unfold matchTagLineAt at hm
  simp only at hm
  split at hm
  case isTrue hpre =>
    exact ((List.isPrefixOf_iff_prefix.mp hpre).isInfix).trans
      ((List.dropWhile_suffix isHT).isInfix)
  case isFalse => cases hm

/-- Where the tag does not occur at all, the removal pass is the identity. -/
theorem dropScan_id (tag : Text) :
    ∀ (s : Text) (flag : Bool), ¬ (tag <:+: s) → dropScan tag 0 flag s = s := by
  intro s
  induction s with
  | nil => intro flag _; rfl
  | cons c rest ih =>
    intro flag hinf
    have hrest : ¬ (tag <:+: rest) := fun h => hinf (List.infix_cons h)
    have hmn : matchTagLineAt tag (c :: rest) = none := by
      rcases hm : matchTagLineAt tag (c :: rest) with - | p
      · rfl
      · exact absurd (matchTagLineAt_occurs hm) hinf
    rw [show dropScan tag 0 flag (c :: rest) =
      (if flag = true ∧ tag ≠ [] then
        match matchTagLineAt tag (c :: rest) with
        | some (r, nl) => dropScan tag ((c :: rest).length - r.length - 1) nl rest
        | none => c :: dropScan tag 0 (c == '\n') rest
       else c :: dropScan tag 0 (c == '\n') rest) from rfl]
    split
    · rw [hmn]
      rw [ih _ hrest]
    · rw [ih _ hrest]

/-- One successful match of the removal pattern: the scan deletes the matched
region and continues at its end. -/
theorem dropScan_match (tag : Text) (htag : tag ≠ []) (c : Char)
    (l r : Text) (nl : Bool)
    (hm : matchTagLineAt tag (c :: (l ++ r)) = some (r, nl)) :
    dropScan tag 0 true (c :: (l ++ r)) = dropScan tag 0 nl r := by
  have e1 : ∀ (flag : Bool), dropScan tag 0 flag (c :: (l ++ r)) =
    (if flag = true ∧ tag ≠ [] then
      match matchTagLineAt tag (c :: (l ++ r)) with
      | some (r2, nl2) =>
        dropScan tag ((c :: (l ++ r)).length - r2.length - 1) nl2 (l ++ r)
      | none => c :: dropScan tag 0 (c == '\n') (l ++ r)
     else c :: dropScan tag 0 (c == '\n') (l ++ r)) := fun flag => rfl
  rw [e1 true, if_pos ⟨rfl, htag⟩, hm]
  show dropScan tag ((c :: (l ++ r)).length - r.length - 1) nl (l ++ r) =
    dropScan tag 0 nl r
  rw [show (c :: (l ++ r)).length - r.length - 1 = l.length by
    simp [List.length_append]
    omega]
  exact dropScan_skip tag nl l r

/-- The removal pattern matches a tag standing alone on its line: leading
horizontal whitespace, the tag, trailing horizontal whitespace, the line
ending, and then optionally one blank line. -/
theorem matchTagLineAt_standalone (tc : Char) (tag2 w1 w2 r : Text)
    (htc : isHT tc = false) (hw1 : ∀ a ∈ w1, isHT a = true)
    (hw2 : ∀ a ∈ w2, isHT a = true) :
    matchTagLineAt (tc :: tag2) (w1 ++ (tc :: tag2) ++ (w2 ++ '\n' :: r)) =
      some ((match chompNL (r.dropWhile isHT) with
             | some r2 => r2
             | none => r), true) := by
  have hdw : (w1 ++ (tc :: tag2) ++ (w2 ++ '\n' :: r)).dropWhile isHT
      = (tc :: tag2) ++ (w2 ++ '\n' :: r) := by
    rw [List.append_assoc, List.dropWhile_append_of_pos hw1,
      show ((tc :: tag2) ++ (w2 ++ '\n' :: r) : Text) =
        tc :: (tag2 ++ (w2 ++ '\n' :: r)) from rfl,
      dropWhile_head _ _ _ htc]
  have hpf : (tc :: tag2).isPrefixOf ((tc :: tag2) ++ (w2 ++ '\n' :: r)) = true :=
    List.isPrefixOf_iff_prefix.mpr (List.prefix_append _ _)
  simp only [matchTagLineAt, hdw, hpf, if_true, List.drop_left]
  rw [dropWhile_run _ _ _ _ hw2 (by decide)]
  rw [show chompNL ('\n' :: r) = some r from rfl]
  show (match chompNL (r.dropWhile isHT) with
        | some s4 => some (s4, true)
        | none => some (r, true)) = _
  rcases hch : chompNL (r.dropWhile isHT) with - | r2 <;> rfl

/-! ## Claim C5: replacement semantics of `_replace_tag` -/

/-- C5 (counterexample).  The claim says an empty resolved replacement removes
the entire source line containing the tag.  For the template `"a [[FOO]]"`
(unknown simple tag, so its replacement is empty) the removal regex is
anchored at a line start, cannot match past the leading `"a "`, and the tag —
let alone its line — is not removed at all: the expansion returns the input
unchanged, not the empty text the claim demands. -/
theorem midline_tag_not_removed :
    (processTemplate ⟨[], [], true, none, []⟩ 1 "a [[FOO]]".data none []).1 =
      "a [[FOO]]".data ∧
    "a [[FOO]]".data ≠ ([] : Text) := by
  constructor
  · decide
  · decide

/-- C5 (amended).  For a tag occurrence standing alone on its source line
(only horizontal whitespace on either side), an empty or whitespace-only
resolved replacement removes the entire line, plus at most one immediately
following blank line: with no following blank line exactly the line is
removed; with two consecutive following blank lines exactly one is removed.
A tag with non-empty, non-whitespace resolved text is substituted by a plain
in-place `str.replace`.  (Occurrences that share their line with other text
are not removed — see the counterexample.) -/
theorem empty_replacement_line_removal :
    (∀ (tc : Char) (tag2 w1 w2 rest repl : Text),
      isHT tc = false →
      (∀ a ∈ w1, isHT a = true) → (∀ a ∈ w2, isHT a = true) →
      pyStrip repl = [] →
      chompNL (rest.dropWhile isHT) = none →
      ¬ ((tc :: tag2) <:+: rest) →
      replaceTag (w1 ++ (tc :: tag2) ++ (w2 ++ '\n' :: rest)) (tc :: tag2) repl
        = rest) ∧
    (∀ (tc : Char) (tag2 w1 w2 w3 w4 rest repl : Text),
      isHT tc = false →
      (∀ a ∈ w1, isHT a = true) → (∀ a ∈ w2, isHT a = true) →
      (∀ a ∈ w3, isHT a = true) →
      pyStrip repl = [] →
      ¬ ((tc :: tag2) <:+: (w4 ++ '\n' :: rest)) →
      replaceTag
        (w1 ++ (tc :: tag2) ++ (w2 ++ '\n' :: (w3 ++ '\n' :: (w4 ++ '\n' :: rest))))
        (tc :: tag2) repl
        = w4 ++ '\n' :: rest) ∧
    (∀ (content tag repl : Text), pyStrip repl ≠ [] →
      replaceTag content tag repl = replaceAll content tag repl) := by
  refine ⟨?_, ?_, ?_⟩
  · intro tc tag2 w1 w2 rest repl htc hw1 hw2 hrepl hnb hinf
    unfold replaceTag
    rw [if_pos hrepl]
    unfold dropTagLines
    have hm := matchTagLineAt_standalone tc tag2 w1 w2 rest htc hw1 hw2
    rw [hnb] at hm
    cases w1 with
    | nil =>
      have hm2 : matchTagLineAt (tc :: tag2)
          (tc :: ((tag2 ++ w2 ++ ['\n']) ++ rest)) = some (rest, true) := by
        have : (([] : Text) ++ (tc :: tag2) ++ (w2 ++ '\n' :: rest)) =
            tc :: ((tag2 ++ w2 ++ ['\n']) ++ rest) := by simp
        rw [← this]
        exact hm
      rw [show (([] : Text) ++ (tc :: tag2) ++ (w2 ++ '\n' :: rest)) =
        tc :: ((tag2 ++ w2 ++ ['\n']) ++ rest) by simp]
      rw [dropScan_match _ (by simp) _ _ _ _ hm2]
      exact dropScan_id _ rest true hinf
    | cons wc w1' =>
      have hshape : ((wc :: w1') ++ (tc :: tag2) ++ (w2 ++ '\n' :: rest)) =
          wc :: ((w1' ++ (tc :: tag2) ++ w2 ++ ['\n']) ++ rest) := by simp
      have hm2 : matchTagLineAt (tc :: tag2)
          (wc :: ((w1' ++ (tc :: tag2) ++ w2 ++ ['\n']) ++ rest)) =
            some (rest, true) := by
        rw [← hshape]
        exact hm
      rw [hshape, dropScan_match _ (by simp) _ _ _ _ hm2]
      exact dropScan_id _ rest true hinf
  · intro tc tag2 w1 w2 w3 w4 rest repl htc hw1 hw2 hw3 hrepl hinf
    unfold replaceTag
    rw [if_pos hrepl]
    unfold dropTagLines
    have hm := matchTagLineAt_standalone tc tag2 w1 w2
      (w3 ++ '\n' :: (w4 ++ '\n' :: rest)) htc hw1 hw2
    rw [dropWhile_run _ _ _ _ hw3 (by decide)] at hm
    rw [show chompNL ('\n' :: (w4 ++ '\n' :: rest)) =
      some (w4 ++ '\n' :: rest) from rfl] at hm
    cases w1 with
    | nil =>
      have hshape : (([] : Text) ++ (tc :: tag2) ++
          (w2 ++ '\n' :: (w3 ++ '\n' :: (w4 ++ '\n' :: rest)))) =
          tc :: ((tag2 ++ w2 ++ ['\n'] ++ w3 ++ ['\n']) ++ (w4 ++ '\n' :: rest)) := by
        simp
      have hm2 : matchTagLineAt (tc :: tag2)
          (tc :: ((tag2 ++ w2 ++ ['\n'] ++ w3 ++ ['\n']) ++ (w4 ++ '\n' :: rest))) =
            some (w4 ++ '\n' :: rest, true) := by
        rw [← hshape]
        exact hm
      rw [hshape, dropScan_match _ (by simp) _ _ _ _ hm2]
      exact dropScan_id _ _ true hinf
    | cons wc w1' =>
      have hshape : ((wc :: w1') ++ (tc :: tag2) ++
          (w2 ++ '\n' :: (w3 ++ '\n' :: (w4 ++ '\n' :: rest)))) =
          wc :: ((w1' ++ (tc :: tag2) ++ w2 ++ ['\n'] ++ w3 ++ ['\n']) ++
            (w4 ++ '\n' :: rest)) := by
        simp
      have hm2 : matchTagLineAt (tc :: tag2)
          (wc :: ((w1' ++ (tc :: tag2) ++ w2 ++ ['\n'] ++ w3 ++ ['\n']) ++
            (w4 ++ '\n' :: rest))) = some (w4 ++ '\n' :: rest, true) := by
        rw [← hshape]
        exact hm
      rw [hshape, dropScan_match _ (by simp) _ _ _ _ hm2]
      exact dropScan_id _ _ true hinf
  · intro content tag repl hrepl
    unfold replaceTag
    rw [if_neg hrepl]

/-- Witness for `empty_replacement_line_removal` at concrete inputs. -/
theorem empty_replacement_line_removal_witness :
    replaceTag ("  [[X]] \n".data ++ "code".data) "[[X]]".data " ".data
      = "code".data ∧
    replaceTag "[[X]]\n\n\ncode".data "[[X]]".data [] = "\ncode".data ∧
    replaceTag "a [[X]] b".data "[[X]]".data "Y".data =
      replaceAll "a [[X]] b".data "[[X]]".data "Y".data := by
  have h := empty_replacement_line_removal
  refine ⟨?_, ?_, h.2.2 _ _ _ (by decide)⟩
  · have h1 := h.1 '[' "[X]]".data "  ".data [' '] "code".data " ".data
      (by decide) (by decide) (by decide) (by decide) (by decide) (by decide)
    simpa using h1
  · have h2 := h.2.1 '[' "[X]]".data [] [] [] [] "code".data []
      (by decide) (by decide) (by decide) (by decide) (by decide) (by decide)
    simpa using h2

/-! ## Claim C1: the uber standard-includes fragment -/

/-- C1.  For any sequence of capture events (with arbitrary repetition), the
synthetic `STANDARD_INCLUDES` fragment the uber pass installs is
lexicographically sorted, duplicate-free, and holds exactly the captured
spellings; and in uber mode a conditional tag whose active branch is
`@STANDARD_INCLUDES` renders it as one `#include` directive per entry,
joined by single newlines (so each spelling appears exactly once, on its own
line, independent of how often it was captured). -/
theorem uber_std_includes_exact (events : List Text)
    (fragments0 : List (Text × List Text)) :
    dictGet (uberFragments fragments0 (captureFold events))
      "STANDARD_INCLUDES".data = some (sortTexts (captureFold events)) ∧
    List.Pairwise (fun a b => lexLe a b = true) (sortTexts (captureFold events)) ∧
    (sortTexts (captureFold events)).Nodup ∧
    (∀ x, x ∈ sortTexts (captureFold events) ↔ x ∈ events) ∧
    (∀ (env : Env) (f : Nat) (m : CondMatch) (std : Option (List Text))
      (proc : List Text),
      env.isUber = true →
      env.fragments = uberFragments fragments0 (captureFold events) →
      condValue m env.isUber = "@STANDARD_INCLUDES".data →
      resolveCond env f m std proc =
        (joinNL ((sortTexts (captureFold events)).map
          (fun inc => "#include ".data ++ inc)), std, proc)) := by
  refine ⟨?_, sortTexts_sorted _, ?_, ?_, ?_⟩
  · exact dictGet_dictSet_self fragments0 _ _
  · exact ((sortTexts_perm (captureFold events)).nodup_iff).mpr
      (nodup_foldl_stdAdd events [] List.nodup_nil)
  · intro x
    rw [(sortTexts_perm (captureFold events)).mem_iff]
    unfold captureFold
    rw [mem_foldl_stdAdd events [] x]
    simp
  · intro env f m std proc huber hfrag hval
    rw [show resolveCond env f m std proc =
      resolveCondF (processTemplate env f) env m std proc from rfl]
    rw [resolveCondF_stdIncludes _ env m std proc huber hval]
    rw [show dictGetD env.fragments "STANDARD_INCLUDES".data [] =
        sortTexts (captureFold events) by
      rw [hfrag]
      unfold dictGetD uberFragments
      rw [dictGet_dictSet_self]
      rfl]

/-- Witness for `uber_std_includes_exact` at a concrete input (the spelling
`<b>` captured twice, `<a>` once). -/
theorem uber_std_includes_exact_witness :
    resolveCond
      ⟨uberFragments [] (captureFold ["<b>".data, "<a>".data, "<b>".data]),
        [], true, none, []⟩ 0
      ⟨"[[@UBER ? @STANDARD_INCLUDES : x]]".data, "UBER".data,
        "@STANDARD_INCLUDES ".data, "x".data⟩ none [] =
      (joinNL ((sortTexts (captureFold ["<b>".data, "<a>".data, "<b>".data])).map
        (fun inc => "#include ".data ++ inc)), none, []) :=
  (uber_std_includes_exact ["<b>".data, "<a>".data, "<b>".data] []).2.2.2.2
    ⟨uberFragments [] (captureFold ["<b>".data, "<a>".data, "<b>".data]),
      [], true, none, []⟩ 0
    ⟨"[[@UBER ? @STANDARD_INCLUDES : x]]".data, "UBER".data,
      "@STANDARD_INCLUDES ".data, "x".data⟩ none [] rfl rfl (by decide)

/-! ## Claim C2: mutually recursive headers -/

/-- A minimal header template that, in uber mode, includes the header named
`N`: the conditional tag `[[@UBER ? @N : x]]` alone. -/
def refTemplate (N : Text) : Text := "[[@UBER ? @".data ++ N ++ " : x]]".data

theorem matchCondAt_refTemplate (N : Text) (hne : N ≠ [])
    (hall : ∀ c ∈ N, isNameChar c = true) :
    matchCondAt (refTemplate N) =
      some (⟨refTemplate N, "UBER".data, '@' :: (N ++ [' ']), ['x']⟩, []) := by
  have hshape : refTemplate N =
      '[' :: '[' :: '@' ::
        ("UBER".data ++ (' ' :: ('?' :: (' ' :: '@' ::
          (N ++ (' ' :: ':' :: (' ' :: 'x' :: ']' :: ']' :: []))))))) := by
    unfold refTemplate
    rw [List.append_assoc]
    rfl
  rw [hshape]
  simp only [matchCondAt]
  rw [takeWhile_run isNameChar "UBER".data ' '
    ('?' :: (' ' :: '@' :: (N ++ (' ' :: ':' :: (' ' :: 'x' :: ']' :: ']' :: [])))))
    (by decide) (by decide)]
  rw [dropWhile_run isNameChar "UBER".data ' '
    ('?' :: (' ' :: '@' :: (N ++ (' ' :: ':' :: (' ' :: 'x' :: ']' :: ']' :: [])))))
    (by decide) (by decide)]
  rw [if_neg (by decide : ¬ ("UBER".data = ([] : Text)))]
  rw [show ((' ' :: ('?' :: (' ' :: '@' ::
      (N ++ (' ' :: ':' :: (' ' :: 'x' :: ']' :: ']' :: [])))))) : Text) =
    [' '] ++ '?' :: (' ' :: '@' ::
      (N ++ (' ' :: ':' :: (' ' :: 'x' :: ']' :: ']' :: [])))) from rfl]
  rw [takeWhile_run isPySpace [' '] '?'
    (' ' :: '@' :: (N ++ (' ' :: ':' :: (' ' :: 'x' :: ']' :: ']' :: []))))
    (by decide) (by decide)]
  rw [dropWhile_run isPySpace [' '] '?'
    (' ' :: '@' :: (N ++ (' ' :: ':' :: (' ' :: 'x' :: ']' :: ']' :: []))))
    (by decide) (by decide)]
  simp only []
  have hpre1 : ((' ' :: '@' ::
      (N ++ (' ' :: ':' :: (' ' :: 'x' :: ']' :: ']' :: [])))) : Text) =
      (' ' :: '@' :: (N ++ [' '])) ++
        ':' :: (' ' :: 'x' :: ']' :: ']' :: []) := by
    simp
  have hmem : ∀ a ∈ ((' ' :: '@' :: (N ++ [' '])) : Text), (!(a == ':')) = true := by
    intro a ha
    rcases List.mem_cons.mp ha with rfl | ha
    · decide
    rcases List.mem_cons.mp ha with rfl | ha
    · decide
    rcases List.mem_append.mp ha with ha | ha
    · have := nameChar_ne (hall a ha) (show isNameChar ':' = false by decide)
      simp [this]
    · rcases List.mem_singleton.mp ha with rfl
      decide
  rw [hpre1]
  rw [takeWhile_run _ (' ' :: '@' :: (N ++ [' '])) ':'
    (' ' :: 'x' :: ']' :: ']' :: []) hmem (by decide)]
  rw [if_neg (by simp : ¬ ((' ' :: '@' :: (N ++ [' ']) : Text) = []))]
  rw [List.drop_left]
  simp only []
  rw [show ((' ' :: 'x' :: ']' :: ']' :: []) : Text).takeWhile (fun c => !(c == ']'))
      = [' ', 'x'] from rfl]
  rw [if_neg (by decide : ¬ (([' ', 'x'] : Text) = []))]
  rw [show ((' ' :: 'x' :: ']' :: ']' :: []) : Text).drop
      (([' ', 'x'] : Text)).length = ']' :: ']' :: [] from rfl]
  simp only []
  rw [show ((' ' :: '@' :: (N ++ [' '])) : Text).takeWhile isPySpace = [' '] by
    rw [show ((' ' :: '@' :: (N ++ [' '])) : Text) =
      [' '] ++ '@' :: (N ++ [' ']) from rfl]
    exact takeWhile_run isPySpace [' '] '@' (N ++ [' ']) (by decide) (by decide)]
  have hmin1 : min ([' '] : Text).length
      (((' ' :: '@' :: (N ++ [' '])) : Text).length - 1) = 1 := by
    simp [List.length_append]
  have hmin2 : min (([' '] : Text)).length ((([' ', 'x'] : Text)).length - 1) = 1 := by
    decide
  rw [hmin1]
  rw [show ((' ' :: '@' :: (N ++ [' '])) : Text).drop 1 = '@' :: (N ++ [' '])
    from rfl]
  simp
  decide

theorem findCond_refTemplate (N : Text) (hne : N ≠ [])
    (hall : ∀ c ∈ N, isNameChar c = true) :
    findCondMatches (refTemplate N) =
      [⟨refTemplate N, "UBER".data, '@' :: (N ++ [' ']), ['x']⟩] := by
  have hshape : refTemplate N =
      '[' :: ('[' :: '@' :: ("UBER".data ++
        (' ' :: '?' :: ' ' :: '@' :: (N ++ (' ' :: ':' :: ' ' :: 'x' :: ']' :: ']' :: []))))) := by
    unfold refTemplate
    rw [List.append_assoc]
    rfl
  have hm := matchCondAt_refTemplate N hne hall
  rw [hshape] at hm
  unfold findCondMatches
  rw [hshape]
  rw [show condScan 0 ('[' :: ('[' :: '@' :: ("UBER".data ++
      (' ' :: '?' :: ' ' :: '@' :: (N ++ (' ' :: ':' :: ' ' :: 'x' :: ']' :: ']' :: [])))))) =
    (match matchCondAt ('[' :: ('[' :: '@' :: ("UBER".data ++
        (' ' :: '?' :: ' ' :: '@' :: (N ++ (' ' :: ':' :: ' ' :: 'x' :: ']' :: ']' :: [])))))) with
     | some (m2, r2) =>
        m2 :: condScan (('[' :: ('[' :: '@' :: ("UBER".data ++
          (' ' :: '?' :: ' ' :: '@' :: (N ++ (' ' :: ':' :: ' ' :: 'x' :: ']' :: ']' :: [])))))).length
            - r2.length - 1)
          ('[' :: '@' :: ("UBER".data ++
            (' ' :: '?' :: ' ' :: '@' :: (N ++ (' ' :: ':' :: ' ' :: 'x' :: ']' :: ']' :: [])))))
     | none => condScan 0 ('[' :: '@' :: ("UBER".data ++
        (' ' :: '?' :: ' ' :: '@' :: (N ++ (' ' :: ':' :: ' ' :: 'x' :: ']' :: ']' :: [])))))) from rfl]
  rw [hm]
  simp only []
  rw [condScan_skip_all _ _ (by simp)]

/-- Expansion of a template that is exactly one conditional tag, whose
resolved replacement is a plain one-line comment: the replacement becomes the
whole output and the threaded state is the resolver's. -/
theorem processTemplate_one_tag (env : Env) (f : Nat) (content : Text)
    (m : CondMatch) (std std2 : Option (List Text)) (proc proc2 : List Text)
    (repl : Text)
    (hscan : findCondMatches content = [m])
    (hres : resolveCondF (processTemplate env f) env m std proc = (repl, std2, proc2))
    (hfull : m.fullTag = content)
    (hrepl : pyStrip repl ≠ [])
    (hnb : '[' ∉ repl) (hnn : '\n' ∉ repl) (hnr : '\r' ∉ repl)
    (hcne : content ≠ []) :
    processTemplate env (f + 1) content std proc = (repl, std2, proc2) := by
  rw [show processTemplate env (f + 1) content std proc =
    (cleanupContent (simplePass env.fragments
        (findSimpleMatches (condPassF (resolveCondF (processTemplate env f) env)
          (findCondMatches content) content std proc).1)
        (condPassF (resolveCondF (processTemplate env f) env)
          (findCondMatches content) content std proc).1),
     (condPassF (resolveCondF (processTemplate env f) env)
        (findCondMatches content) content std proc).2.1,
     (condPassF (resolveCondF (processTemplate env f) env)
        (findCondMatches content) content std proc).2.2) from rfl]
  rw [hscan]
  rw [show condPassF (resolveCondF (processTemplate env f) env) [m] content std proc =
    condPassF (resolveCondF (processTemplate env f) env) []
      (replaceTag content m.fullTag
        (resolveCondF (processTemplate env f) env m std proc).1)
      (resolveCondF (processTemplate env f) env m std proc).2.1
      (resolveCondF (processTemplate env f) env m std proc).2.2 from rfl]
  rw [hres]
  simp only [condPassF]
  rw [hfull]
  rw [show replaceTag content content repl = replaceAll content content repl by
    unfold replaceTag
    rw [if_neg hrepl]]
  rw [replaceAll_self content repl hcne]
  rw [findSimpleMatches_of_no_bracket repl hnb]
  rw [show simplePass env.fragments [] repl = repl from rfl]
  have hcl := cleanupScan_flat repl [] hnn hnr
  unfold cleanupContent
  rw [hcl]
  rfl

/-- The circular-reference comment for a well-formed header name contains no
bracket, newline or carriage return, and does not strip to the empty
string. -/
theorem circComment_facts (B : Text) (hBc : ∀ c ∈ B, isNameChar c = true) :
    pyStrip ("/* Circular reference detected: ".data ++ B ++ " */".data) ≠ [] ∧
    '[' ∉ ("/* Circular reference detected: ".data ++ B ++ " */".data) ∧
    '\n' ∉ ("/* Circular reference detected: ".data ++ B ++ " */".data) ∧
    '\r' ∉ ("/* Circular reference detected: ".data ++ B ++ " */".data) := by
  have hnot : ∀ (d : Char), isNameChar d = false →
      d ∉ "/* Circular reference detected: ".data → d ∉ " */".data →
      d ∉ ("/* Circular reference detected: ".data ++ B ++ " */".data) := by
    intro d hd h1 h2 hmem
    rcases List.mem_append.mp hmem with hm | hm
    · rcases List.mem_append.mp hm with hm | hm
      · exact h1 hm
      · have := hBc d hm
        rw [hd] at this
        exact Bool.false_ne_true this
    · exact h2 hm
  refine ⟨?_, hnot '[' (by decide) (by decide) (by decide),
    hnot '\n' (by decide) (by decide) (by decide),
    hnot '\r' (by decide) (by decide) (by decide)⟩
  refine pyStrip_ne_nil _ '/' ?_ (by decide)
  exact List.mem_append.mpr (Or.inl (List.mem_append.mpr (Or.inl (by decide))))

/-- C2.  For any two distinct well-formed header names `A` and `B` (none of
the special-cased names) whose templates reference each other in uber mode,
expanding `A`'s template as the uber root — with fuel bounded by the file
system size, as `generate_uber_file` does — terminates with the
circular-reference placeholder as the substituted text at the point of
re-entry into the cycle: here the whole output, since each template is a
single mutual-reference tag.  The visited set records both template paths. -/
theorem cycle_guard (A B fA fB basePath : Text)
    (hAne : A ≠ []) (hBne : B ≠ [])
    (hAc : ∀ c ∈ A, isNameChar c = true) (hBc : ∀ c ∈ B, isNameChar c = true)
    (hAB : A ≠ B)
    (hAcap : ("STDCAPTURE".data).isPrefixOf A = false)
    (hBcap : ("STDCAPTURE".data).isPrefixOf B = false)
    (hAsi : A ≠ "STANDARD_INCLUDES".data) (hBsi : B ≠ "STANDARD_INCLUDES".data)
    (hAam : A ≠ "ASSERT_MACRO".data) (hBam : B ≠ "ASSERT_MACRO".data)
    (hpp : templatePath basePath (nsOf A) fA ≠ templatePath basePath (nsOf B) fB) :
    generateUberFile [] [(A, fA), (B, fB)]
      [ (templatePath basePath (nsOf A) fA, refTemplate B),
        (templatePath basePath (nsOf B) fB, refTemplate A) ]
      basePath (refTemplate B) [] =
    ("/* Circular reference detected: ".data ++ B ++ " */".data,
     [("STANDARD_INCLUDES".data, [])]) := by
  set pA := templatePath basePath (nsOf A) fA with hpA
  set pB := templatePath basePath (nsOf B) fB with hpB
  set env : Env :=
    { fragments := [("STANDARD_INCLUDES".data, [])],
      headers := [(A, fA), (B, fB)], isUber := true,
      basePath := some basePath,
      fs := [(pA, refTemplate B), (pB, refTemplate A)] } with henv
  have hBval : condValue ⟨refTemplate B, "UBER".data, '@' :: (B ++ [' ']), ['x']⟩
      env.isUber = '@' :: B := by
    unfold condValue
    rw [if_pos ⟨rfl, rfl⟩]
    exact pyStrip_wrap '@' B [' '] (by decide) (by decide) hBne
      (fun a ha => nameChar_not_space (hBc a ha))
  have hAval : condValue ⟨refTemplate A, "UBER".data, '@' :: (A ++ [' ']), ['x']⟩
      env.isUber = '@' :: A := by
    unfold condValue
    rw [if_pos ⟨rfl, rfl⟩]
    exact pyStrip_wrap '@' A [' '] (by decide) (by decide) hAne
      (fun a ha => nameChar_not_space (hAc a ha))
  have hfrB : dictGet env.fragments B = none := by
    simp only [dictGet]
    rw [if_neg (fun h => hBsi h.symm)]
  have hfrA : dictGet env.fragments A = none := by
    simp only [dictGet]
    rw [if_neg (fun h => hAsi h.symm)]
  have hhdB : dictGet env.headers B = some fB := by
    simp [dictGet, hAB]
  have hhdA : dictGet env.headers A = some fA := by
    simp [dictGet]
  have hfsB : fsRead env.fs pB = Except.ok (refTemplate A) := by
    unfold fsRead
    simp [dictGet, hpp]
  have hfsA : fsRead env.fs pA = Except.ok (refTemplate B) := by
    unfold fsRead
    simp [dictGet]
  obtain ⟨hstrip, hnb, hnn, hnr⟩ := circComment_facts B hBc
  -- level 3: expanding A's template again, with both paths visited
  have hlevel3 : processTemplate env 1 (refTemplate B) none [pA, pB] =
      ("/* Circular reference detected: ".data ++ B ++ " */".data,
       none, [pA, pB]) := by
    refine processTemplate_one_tag env 0 (refTemplate B) _ none none [pA, pB]
      [pA, pB] _ (findCond_refTemplate B hBne hBc) ?_ rfl hstrip hnb hnn hnr
      (by simp [refTemplate])
    rw [resolveCondF_header _ env _ none [pA, pB] B fB basePath rfl hBval
      hBcap hBsi hBam hfrB hhdB rfl]
    rw [if_pos (by simp : pB ∈ [pA, pB])]
  -- level 2: expanding B's template, with A's path visited
  have hlevel2 : processTemplate env 2 (refTemplate A) none [pB] =
      ("/* Circular reference detected: ".data ++ B ++ " */".data,
       none, [pA, pB]) := by
    refine processTemplate_one_tag env 1 (refTemplate A) _ none none [pB]
      [pA, pB] _ (findCond_refTemplate A hAne hAc) ?_ rfl hstrip hnb hnn hnr
      (by simp [refTemplate])
    rw [resolveCondF_header _ env _ none [pB] A fA basePath rfl hAval
      hAcap hAsi hAam hfrA hhdA rfl]
    rw [if_neg (by simp [hpp] : ¬ pA ∈ [pB])]
    rw [hfsA]
    exact hlevel3
  -- level 1: expanding A's template as the uber root
  have hlevel1 : processTemplate env 3 (refTemplate B) none [] =
      ("/* Circular reference detected: ".data ++ B ++ " */".data,
       none, [pA, pB]) := by
    refine processTemplate_one_tag env 2 (refTemplate B) _ none none []
      [pA, pB] _ (findCond_refTemplate B hBne hBc) ?_ rfl hstrip hnb hnn hnr
      (by simp [refTemplate])
    rw [resolveCondF_header _ env _ none [] B fB basePath rfl hBval
      hBcap hBsi hBam hfrB hhdB rfl]
    rw [if_neg (by simp : ¬ pB ∈ [])]
    rw [hfsB]
    exact hlevel2
  show ((processTemplate env (defaultFuel env.fs) (refTemplate B) none []).1,
    env.fragments) = _
  rw [show defaultFuel env.fs = 3 from rfl]
  rw [hlevel1]

/-- Witness for `cycle_guard` at concrete names. -/
theorem cycle_guard_witness :
    generateUberFile [] [("AAA".data, "a.tmpl".data), ("BBB".data, "b.tmpl".data)]
      [ (templatePath "..".data (nsOf "AAA".data) "a.tmpl".data, refTemplate "BBB".data),
        (templatePath "..".data (nsOf "BBB".data) "b.tmpl".data, refTemplate "AAA".data) ]
      "..".data (refTemplate "BBB".data) [] =
    ("/* Circular reference detected: ".data ++ "BBB".data ++ " */".data,
     [("STANDARD_INCLUDES".data, [])]) :=
  cycle_guard "AAA".data "BBB".data "a.tmpl".data "b.tmpl".data "..".data
    (by decide) (by decide) (by decide) (by decide) (by decide) (by decide)
    (by decide) (by decide) (by decide) (by decide) (by decide) (by decide)

end UberGen
